import Mathlib

/-!
# begonia: the link-mode dispatcher

A shallow embedding of `dispatch/dispatch_default_link.go` (package `dispatch`).

The Go code is stateful and talks to packages that live outside the file
(`conn`, `frame`, `berr`, `ids`, `log`, `time`).  The embedding threads an explicit
`World` through every operation:

* the dispatcher record `linkDispatch` with the fields of the Go struct;
* a heap of connections, each with the log of its `Write` calls and the number of
  `Close` calls;
* the log of `conn.Dial` calls, the events of timers and goroutine launches;
* an outside world `W` on which close hooks and the logger act.

What the outside decides (the result of a dial, of a write, the frames a connection
delivers, the ids handed out by `ids.New`) is an input of the model.
-/

namespace Begonia

/-! ## Values of the Go runtime -/

/-- Go `error` values that are not nil.  `berrNew` and `berrWarp` stand for the results
of `berr.New` and `berr.Warp` of the package `tool/berr`, `berrNewF` for the result of
`berr.NewF` with one integer argument; `msg` is any other error
(an I/O error of a connection, an error of a provider). -/
inductive GoError where
  | msg (text : String)
  | berrNew (pkg op text : String)
  | berrWarp (pkg op : String) (cause : GoError)
  | berrNewF (pkg op format : String) (arg : Int)
  deriving DecidableEq, Repr

/-- Values a Go panic carries: an error passed to `panic`, or a run-time error
(failed type assertion, nil dereference). -/
inductive GoPanic where
  | error (e : GoError)
  | runtime (what : String)
  deriving DecidableEq, Repr

/-- Result of a call that either returns or panics. -/
inductive Outcome (α : Type) where
  | ret (a : α)
  | panicked (p : GoPanic)

/-- Bytes on the wire. -/
abbrev Byte := Fin 256

/-- Byte strings. -/
abbrev Bytes := List Byte

/-- Go conversion `byte(x)` of an `int`: the low eight bits. -/
def toByte (x : Int) : Byte := Fin.ofNat (x % 256).toNat

/-- Two's complement wrap of an integer into the range of `int64`. -/
def wrapInt64 (x : Int) : Int := (x + 2 ^ 63) % 2 ^ 64 - 2 ^ 63

/-- Go product `k * d` of a constant and a `time.Duration` (an `int64`). -/
def mulDuration (k d : Int) : Int := wrapInt64 (k * d)

/-- Dynamic values held by an `interface{}` entry of the configuration map. -/
inductive GoValue where
  | str (s : String)
  | duration (d : Int)
  | int (n : Int)
  | nilValue
  | other (typeName : String)
  deriving DecidableEq, Repr

/-- Go `map[string]interface{}`, read only; the nil map reads as the empty map. -/
abbrev Config := String → Option GoValue

/-- Go `map[string]string`. -/
abbrev Facts := String → Option String

/-- Result of `make(map[string]string)`. -/
def Facts.empty : Facts := fun _ => none

/-- Map update `m[k] = v`. -/
def Facts.set (m : Facts) (k v : String) : Facts :=
  fun x => if x = k then some v else m x

/-- Go `type GetMachineFunc func(map[string]string) error`: the function mutates the
map it is given and returns an error or nil; here it returns the map as it left it. -/
abbrev GetMachineFunc := Facts → Facts × Option GoError

/-- Triple returned by `conn.Conn.Recv()`: `(opcode, data, err)`. -/
structure RecvResult where
  opcode : Byte
  data : Bytes
  err : Option GoError
  deriving DecidableEq, Repr

/-- State of one `conn.Conn`: the log of `Write` calls, the outcome of the k-th `Write`
call (decided by the transport), and the number of `Close` calls. -/
structure Conn where
  written : List (Byte × Bytes)
  writeResult : Nat → Option GoError
  closed : Nat

/-- Arguments of a logger call. -/
inductive LogArg where
  | str (s : String)
  | err (e : Option GoError)
  deriving DecidableEq, Repr

/-- What lies outside `dispatch_default_link.go` and is used by it: the package `frame`
(opcode constants, `ParseOpcode`, `UnMarshalBasic`, `NewPing`, `NewPong` and the methods
`Opcode` and `Marshal` of a frame), `runtime.GOMAXPROCS(0)`, and the effect of the
standard logger on the outside world `W`.  The two control codes are the constants of two
cases of one `switch`, which Go requires to be distinct. -/
structure Externals (F W : Type) where
  BasicCtrlCode : Int
  PingPongCtrlCode : Int
  ctrl_ne : BasicCtrlCode ≠ PingPongCtrlCode
  ParseOpcode : Int → Int × Int
  UnMarshalBasic : Int → Bytes → Except GoError F
  NewPing : Int → F
  NewPong : Facts → Option GoError → F
  Opcode : F → Int
  Marshal : F → Bytes
  GOMAXPROCS : Nat
  logPrint : String → List LogArg → W → W

/-! ## The dispatcher -/

/-- Go `recvMsg`: a frame together with the id of the connection it came from. -/
structure recvMsg (F : Type) where
  connID : String
  f : F

/-- Go `func(connID string, err error)`, acting on the outside world. -/
abbrev CloseHook (W : Type) := String → GoError → W → W

/-- Go `struct linkDispatch`.  `linkedConn` is a handle into the heap of connections or
nil; `closeHookFunc` is a function value or nil.  The buffered channel `msgCh` is the pair
of `msgCh`, the records sent and not yet received, oldest first, and `msgChCap`, the capacity
the channel was made with. -/
structure linkDispatch (F W : Type) where
  MachineInfo : List GetMachineFunc
  config : Config
  linkAddr : String
  linkedConn : Option Nat
  linkID : String
  msgCh : List (recvMsg F)
  msgChCap : Nat
  closeHookFunc : Option (CloseHook W)

/-- Observable actions that are not kept in a field: timers and goroutine launches, and
calls of the close hook. -/
inductive Event where
  | goWork (c : Nat) (pingPongTime : Int)
  | timerNew (dur : Int)
  | goIsTimeOut
  | timerReset (dur : Int)
  | closeHook (connID : String) (err : GoError)
  deriving DecidableEq, Repr

/-- Everything the code can read or change. -/
structure World (F W : Type) where
  d : linkDispatch F W
  conns : Nat → Conn
  nextConn : Nat
  dialResult : Nat → String → Option GoError
  dialed : List String
  newId : Nat → String
  idCount : Nat
  events : List Event
  ext : W

/-- Dynamic values passed as the `hookFunc interface{}` argument of `Hook`: a value of
type `func(connID string, err error)` (possibly the nil function), an `int`, the nil
interface, or a value of another type with the given `reflect` type string. -/
inductive HookArg (W : Type) where
  | closeFunc (f : Option (CloseHook W))
  | int (n : Int)
  | nilIface
  | other (typeName : String)

/-- The provider `func(m map[string]string) error` that `Link` and the constructor
register: `m["cpu"] = strconv.Itoa(runtime.GOMAXPROCS(0)); return nil`. -/
def cpuProvider (procs : Nat) : GetMachineFunc :=
  fun m => (m.set "cpu" (toString procs), none)

/-- Go `NewLinkedByDefaultCluster`: the dispatcher it returns. -/
def NewLinkedByDefaultCluster {F W : Type} (L : Externals F W) : linkDispatch F W :=
  { MachineInfo := [cpuProvider L.GOMAXPROCS]
    config := fun _ => none
    linkAddr := ""
    linkedConn := none
    linkID := ""
    msgCh := []
    msgChCap := 10
    closeHookFunc := some (fun connID err =>
      L.logPrint "connID [%s] has some error: [%s]\n" [.str connID, .err (some err)]) }

/-- Loop of `getMachineInfo`: `for _, fun := range d.MachineInfo` with a `break` at the first
error.  Returns the map, the last error, and (as a ghost value) the number of providers that
were invoked. -/
def getMachineInfoLoop : List GetMachineFunc → Facts → Facts × Option GoError × Nat
  | [], info => (info, none, 0)
  | f :: rest, info =>
    match f info with
    | (info1, some e) => (info1, some e, 1)
    | (info1, none) =>
      let r := getMachineInfoLoop rest info1
      (r.1, r.2.1, r.2.2 + 1)

/-- Go `getMachineInfo`. -/
def getMachineInfo {F W : Type} (d : linkDispatch F W) : Facts × Option GoError :=
  let r := getMachineInfoLoop d.MachineInfo Facts.empty
  (r.1, r.2.1)

/-- Number of providers `getMachineInfo` invokes (ghost value of the loop). -/
def getMachineInfoCalls {F W : Type} (d : linkDispatch F W) : Nat :=
  (getMachineInfoLoop d.MachineInfo Facts.empty).2.2

/-- The map after running all of `fs` in order from `m`, each on the map the previous one
left. -/
def applyAll (fs : List GetMachineFunc) (m : Facts) : Facts :=
  fs.foldl (fun acc f => (f acc).1) m

/-- Every provider of `fs`, run in order from `m`, returns a nil error. -/
def allSucceed : List GetMachineFunc → Facts → Prop
  | [], _ => True
  | f :: rest, m => (f m).2 = none ∧ allSucceed rest (f m).1

/-! ## Connections -/

/-- Go `c.Write(opcode, data)` on the connection with handle `c`: the call is appended to
the log of the connection and its result is the one the transport decides for that call. -/
def connWrite {F W : Type} (w : World F W) (c : Nat) (op : Byte) (data : Bytes) :
    World F W × Option GoError :=
  let cn := w.conns c
  ({ w with conns := Function.update w.conns c
              { cn with written := cn.written ++ [(op, data)] } },
   cn.writeResult cn.written.length)

/-- Go `c.Close()` on the connection with handle `c`; its result is not used by the code. -/
def connClose {F W : Type} (w : World F W) (c : Nat) : World F W :=
  let cn := w.conns c
  { w with conns := Function.update w.conns c { cn with closed := cn.closed + 1 } }

/-- Message of the run-time panic for a call through a nil interface or nil function. -/
def nilDeref : GoPanic := .runtime "invalid memory address or nil pointer dereference"

/-- Message of the run-time panic for a failed type assertion `x.(T)`. -/
def badAssertion : GoPanic := .runtime "interface conversion"

/-! ## Methods of `linkDispatch` -/

/-- Go `Hook`: the type switch on `name` and the type assertion on `hookFunc`.
`reflect.TypeOf(hookFunc).String()` is the type string of the value; for the nil interface
`reflect.TypeOf` is nil and the call of `String` is a run-time panic. -/
def Hook {F W : Type} (name : String) (hookFunc : HookArg W) (w : World F W) :
    World F W × Outcome Unit :=
  if name = "close" then
    match hookFunc with
    | .closeFunc f => ({ w with d := { w.d with closeHookFunc := f } }, .ret ())
    | .int _ =>
      (w, .panicked (.error (.berrNew "dispatch" "hook"
        ("close func must func(connID string, err error) but " ++ "int"))))
    | .other t =>
      (w, .panicked (.error (.berrNew "dispatch" "hook"
        ("close func must func(connID string, err error) but " ++ t))))
    | .nilIface => (w, .panicked nilDeref)
  else
    (w, .panicked (.error (.berrNew "dispatch" "hook" ("hook func " ++ name ++ "not found"))))

/-- The lookup of `managerAddr` in `Link`: `if addrIn, ok := config["managerAddr"]; ok
{ addr = addrIn.(string) }`; the empty string when the key is absent, a panic when the value
is not a string. -/
def configAddr (config : Config) : Outcome String :=
  match config "managerAddr" with
  | none => .ret ""
  | some (.str s) => .ret s
  | some _ => .panicked badAssertion

/-- The lookup of `pingpongTime` in `Link`: zero when the key is absent, a panic when the
value is not a `time.Duration`. -/
def configPingPong (config : Config) : Outcome Int :=
  match config "pingpongTime" with
  | none => .ret 0
  | some (.duration t) => .ret t
  | some _ => .panicked badAssertion

/-- Go `Link`.  The steps, in the order of the source: replace `MachineInfo` by the one
default provider; read `managerAddr` and `pingpongTime` from the configuration (a type
assertion that fails panics); store `linkAddr`; dial; on a dial error return the wrapped
error; otherwise write the ping (the result of the write is dropped), store the
connection and launch `work`. -/
def Link {F W : Type} (L : Externals F W) (config : Config) (w : World F W) :
    World F W × Outcome (Option GoError) :=
  let w1 : World F W := { w with d := { w.d with MachineInfo := [cpuProvider L.GOMAXPROCS] } }
  match configAddr config with
  | .panicked p => (w1, .panicked p)
  | .ret addr =>
    match configPingPong config with
    | .panicked p => (w1, .panicked p)
    | .ret pingpongtime =>
      let w2 : World F W := { w1 with d := { w1.d with linkAddr := addr } }
      let w3 : World F W := { w2 with dialed := w2.dialed ++ [addr] }
      match w2.dialResult w2.dialed.length addr with
      | some err => (w3, .ret (some (.berrWarp "dispatch" "link" err)))
      | none =>
        let c := w3.nextConn
        let w4 : World F W := { w3 with nextConn := c + 1 }
        let ping := L.NewPing pingpongtime
        let w5 := (connWrite w4 c (toByte (L.Opcode ping)) (L.Marshal ping)).1
        let w6 : World F W := { w5 with d := { w5.d with linkedConn := some c } }
        ({ w6 with events := w6.events ++ [.goWork c pingpongtime] }, .ret none)

/-- Go `ReLink`: `err := d.Link(d.config); return err == nil`. -/
def ReLink {F W : Type} (L : Externals F W) (w : World F W) : World F W × Outcome Bool :=
  match Link L w.d.config w with
  | (w1, .ret err) => (w1, .ret err.isNone)
  | (w1, .panicked p) => (w1, .panicked p)

/-- Go `Send`: one `Write` on `d.linkedConn`. -/
def Send {F W : Type} (L : Externals F W) (f : F) (w : World F W) :
    World F W × Outcome (Option GoError) :=
  match w.d.linkedConn with
  | none => (w, .panicked nilDeref)
  | some c =>
    let r := connWrite w c (toByte (L.Opcode f)) (L.Marshal f)
    (r.1, .ret r.2)

/-- Go `SendTo`. -/
def SendTo {F W : Type} (L : Externals F W) (connID : String) (f : F) (w : World F W) :
    World F W × Outcome (Option GoError) :=
  if connID ≠ w.d.linkID then
    (w, .ret (some (.berrNew "dispatch" "send"
      "in linked mode, you can't use SendTo() to another conn, please use Send() or passing manager center connID")))
  else
    match w.d.linkedConn with
    | none => (w, .panicked nilDeref)
    | some c =>
      let r := connWrite w c (toByte (L.Opcode f)) (L.Marshal f)
      (r.1, .ret r.2)

/-- Go `Recv`: take the oldest record off `msgCh`; `none` when the channel is empty and the
call blocks. -/
def Recv {F W : Type} (w : World F W) : Option ((String × F) × World F W) :=
  match w.d.msgCh with
  | [] => none
  | m :: rest => some ((m.connID, m.f), { w with d := { w.d with msgCh := rest } })

/-- Go `Listen`: always panics. -/
def Listen {F W : Type} (_addr : String) (w : World F W) : World F W × Outcome Unit :=
  (w, .panicked (.error (.berrNew "dispatch" "listen" "link mode can't use Listen()")))

/-- Go `Close`: `d.linkedConn.Close()`. -/
def Close {F W : Type} (w : World F W) : World F W × Outcome Unit :=
  match w.d.linkedConn with
  | none => (w, .panicked nilDeref)
  | some c => (connClose w c, .ret ())

/-- Go `isTimeOut` from the moment the timer has fired (`<-timer.C` has returned): the
body is the single call `d.Close()`. -/
def isTimeOut {F W : Type} (w : World F W) : World F W × Outcome Unit :=
  Close w

/-! ## The receive loop -/

/-- How one pass through the body of the loop of `work` ends: it goes on with the next pass
(`next`), it has reached the send `d.msgCh <- m` (`send`), it has left the loop by `break`
(`returned`), or it has panicked. -/
inductive IterEnd (F : Type) where
  | next
  | send (m : recvMsg F)
  | returned
  | panicked (p : GoPanic)

/-- One pass through the body of the `for` loop of `work` on connection `c`, with the local
variables `id` and `pingPongTime`, given the result `r` of the call `c.Recv()`; in the Basic
case up to the send on `msgCh`, which is the last statement of the pass. -/
def workBody {F W : Type} (L : Externals F W) (c : Nat) (id : String) (pingPongTime : Int)
    (r : RecvResult) (w : World F W) : World F W × IterEnd F :=
  match r.err with
  | some err =>
    let w1 := connClose w c
    match w1.d.closeHookFunc with
    | none => (w1, .panicked nilDeref)
    | some hook =>
      ({ w1 with ext := hook id err w1.ext, events := w1.events ++ [.closeHook id err] },
       .returned)
  | none =>
    let tc := L.ParseOpcode (r.opcode.val : Int)
    if tc.2 = L.BasicCtrlCode then
      match L.UnMarshalBasic tc.1 r.data with
      | .error err => (w, .panicked (.error err))
      | .ok f => (w, .send { connID := id, f := f })
    else if tc.2 = L.PingPongCtrlCode then
      let w1 : World F W :=
        { w with events := w.events ++ [.timerReset (mulDuration 2 pingPongTime)] }
      let ie := getMachineInfo w1.d
      let pong := L.NewPong ie.1 ie.2
      match Send L pong w1 with
      | (w2, .panicked p) => (w2, .panicked p)
      | (w2, .ret none) => (w2, .next)
      | (w2, .ret (some err)) =>
        ({ w2 with ext := L.logPrint "sendPong err" [.err (some err)] w2.ext }, .next)
    else
      (w, .panicked (.error (.berrNewF "dispatch" "recv" "ctrl code [%s] not support" tc.2)))

/-- A send `d.msgCh <- m` that completes: the record is the newest of the channel. -/
def chanSend {F W : Type} (m : recvMsg F) (w : World F W) : World F W :=
  { w with d := { w.d with msgCh := w.d.msgCh ++ [m] } }

/-- How a run of the loop of `work` on a finite stream of reads ends when no other
goroutine moves: `blocked` in `c.Recv()` once the stream is used up; `blockedInSend` in the
send `d.msgCh <- m` of the frame of the read `r`, the channel being full; `returned` after
the `break`; or `panicked`.  The last three carry the reads that were not consumed. -/
inductive WorkEnd where
  | blocked
  | blockedInSend (r : RecvResult) (unread : List RecvResult)
  | returned (unread : List RecvResult)
  | panicked (p : GoPanic) (unread : List RecvResult)
  deriving DecidableEq, Repr

/-- The `for` loop of `work`, run on the results of the successive calls of `c.Recv()` while
no other goroutine moves.  The send `d.msgCh <- m` completes when the channel holds fewer
records than its capacity; otherwise the loop stays in the send, and the run ends there.
The run in which calls of `Recv` come in between and make room is `sysRun`. -/
def workLoop {F W : Type} (L : Externals F W) (c : Nat) (id : String) (pingPongTime : Int) :
    List RecvResult → World F W → World F W × WorkEnd
  | [], w => (w, .blocked)
  | r :: rest, w =>
    match workBody L c id pingPongTime r w with
    | (w1, .next) => workLoop L c id pingPongTime rest w1
    | (w1, .send m) =>
      if w1.d.msgCh.length < w1.d.msgChCap then
        workLoop L c id pingPongTime rest (chanSend m w1)
      else (w1, .blockedInSend r rest)
    | (w1, .returned) => (w1, .returned rest)
    | (w1, .panicked p) => (w1, .panicked p rest)

/-- The statements of `work` before the loop: take a fresh id, store it in `linkID`, log,
create the timer and launch `isTimeOut`. -/
def workStart {F W : Type} (L : Externals F W) (pingPongTime : Int) (w : World F W) :
    World F W :=
  let id := w.newId w.idCount
  let w1 : World F W := { w with idCount := w.idCount + 1, d := { w.d with linkID := id } }
  let w2 : World F W := { w1 with ext := L.logPrint "link [%s] success\n" [.str id] w1.ext }
  { w2 with events := w2.events ++ [.timerNew (mulDuration 2 pingPongTime), .goIsTimeOut] }

/-- Go `work` while no other goroutine moves: the statements before the loop, then the loop
with `id` the fresh id. -/
def work {F W : Type} (L : Externals F W) (c : Nat) (pingPongTime : Int)
    (reads : List RecvResult) (w : World F W) : World F W × WorkEnd :=
  workLoop L c (w.newId w.idCount) pingPongTime reads (workStart L pingPongTime w)

/-! ## The loop and the callers of `Recv` side by side -/

/-- The loop of `work` together with the goroutines that call `Recv`: the world, the results
the connection still has to return to `c.Recv()`, the record of a send that waits for room in
the channel, whether the loop has ended, and what the calls of `Recv` have returned so far,
oldest first. -/
structure LoopSys (F W : Type) where
  world : World F W
  unread : List RecvResult
  sending : Option (recvMsg F)
  ended : Bool
  received : List (String × F)

/-- Who moves next: the loop, or a caller of `Recv`. -/
inductive Action where
  | loop
  | recv
  deriving DecidableEq, Repr

/-- One move.  A caller of `Recv` takes the oldest record of the channel, or waits when the
channel is empty.  The loop completes a waiting send when the channel has room, and
waits otherwise; with no send waiting it takes the next result of `c.Recv()` through one
pass of the body, or waits when there is none. -/
def sysStep {F W : Type} (L : Externals F W) (c : Nat) (id : String) (pingPongTime : Int) :
    Action → LoopSys F W → LoopSys F W
  | .recv, s =>
    match Recv s.world with
    | none => s
    | some (m, w1) => { s with world := w1, received := s.received ++ [m] }
  | .loop, s =>
    if s.ended then s
    else
      match s.sending with
      | some m =>
        if s.world.d.msgCh.length < s.world.d.msgChCap then
          { s with world := chanSend m s.world, sending := none }
        else s
      | none =>
        match s.unread with
        | [] => s
        | r :: rest =>
          match workBody L c id pingPongTime r s.world with
          | (w1, .next) => { s with world := w1, unread := rest }
          | (w1, .send m) => { s with world := w1, unread := rest, sending := some m }
          | (w1, .returned) => { s with world := w1, unread := rest, ended := true }
          | (w1, .panicked _) => { s with world := w1, unread := rest, ended := true }

/-- A sequence of moves. -/
def sysRun {F W : Type} (L : Externals F W) (c : Nat) (id : String) (pingPongTime : Int) :
    List Action → LoopSys F W → LoopSys F W
  | [], s => s
  | a :: rest, s => sysRun L c id pingPongTime rest (sysStep L c id pingPongTime a s)

/-- The loop at its first pass in the world `w`, with the results `reads` ahead of it and no
call of `Recv` made yet. -/
def sysStart {F W : Type} (w : World F W) (reads : List RecvResult) : LoopSys F W :=
  { world := w, unread := reads, sending := none, ended := false, received := [] }

/-! ## Notions used to state the properties of the loop -/

/-- Control code of the frame a successful read delivers: the second component of
`frame.ParseOpcode(int(opcode))`. -/
def ctrlOf {F W : Type} (L : Externals F W) (r : RecvResult) : Int :=
  (L.ParseOpcode (r.opcode.val : Int)).2

/-- Type of the frame a successful read delivers: the first component of
`frame.ParseOpcode(int(opcode))`. -/
def typOf {F W : Type} (L : Externals F W) (r : RecvResult) : Int :=
  (L.ParseOpcode (r.opcode.val : Int)).1

/-- The read delivers a frame whose control code is Basic. -/
def isBasicRead {F W : Type} (L : Externals F W) (r : RecvResult) : Bool :=
  decide (ctrlOf L r = L.BasicCtrlCode)

/-- The record `m` is the frame of the read `r`, decoded and tagged with `id`. -/
def recordOf {F W : Type} (L : Externals F W) (id : String) (r : RecvResult)
    (m : recvMsg F) : Prop :=
  m.connID = id ∧ L.UnMarshalBasic (typOf L r) r.data = .ok m.f

/-- The records of the Basic frames among the reads, in the order of the reads: each frame
decoded by `frame.UnMarshalBasic` and tagged with `id`. -/
def basicRecords {F W : Type} (L : Externals F W) (id : String) (reads : List RecvResult) :
    List (recvMsg F) :=
  reads.filterMap (fun r =>
    if ctrlOf L r = L.BasicCtrlCode then
      match L.UnMarshalBasic (typOf L r) r.data with
      | .ok f => some { connID := id, f := f }
      | .error _ => none
    else none)

/-- What `Recv` returns for each record, in order. -/
def pairsOf {F : Type} (ms : List (recvMsg F)) : List (String × F) :=
  ms.map (fun m => (m.connID, m.f))

/-- The reads a run without failure is made of: no read error, a control code that is Basic
or PingPong, and for a Basic frame a payload that decodes. -/
def framesOk {F W : Type} (L : Externals F W) (reads : List RecvResult) : Prop :=
  ∀ r ∈ reads, r.err = none ∧
    (ctrlOf L r = L.BasicCtrlCode ∨ ctrlOf L r = L.PingPongCtrlCode) ∧
    (ctrlOf L r = L.BasicCtrlCode → ∃ f, L.UnMarshalBasic (typOf L r) r.data = .ok f)

/-- What every move keeps when the reads are `framesOk`: the loop has not ended, the
dispatcher owns `lc`, the channel holds at most `cap` records and has capacity `cap`, and no
record is lost or reordered: what was received, then the channel, then the waiting send, then
the Basic frames still unread, is the list `total`. -/
def sysInv {F W : Type} (L : Externals F W) (id : String) (lc cap : Nat)
    (total : List (String × F)) (s : LoopSys F W) : Prop :=
  s.ended = false ∧
  s.world.d.linkedConn = some lc ∧
  s.world.d.msgChCap = cap ∧
  s.world.d.msgCh.length ≤ cap ∧
  framesOk L s.unread ∧
  s.received ++ pairsOf s.world.d.msgCh ++ pairsOf s.sending.toList
    ++ pairsOf (basicRecords L id s.unread) = total

/-- What is left to do: three for every unread result, two for a waiting send, one for
every record in the channel. -/
def sysWork {F W : Type} (s : LoopSys F W) : Nat :=
  3 * s.unread.length + 2 * s.sending.toList.length + s.world.d.msgCh.length

/-- The event is a call of the close hook. -/
def Event.isCloseHook : Event → Bool
  | .closeHook _ _ => true
  | _ => false

/-- Results of up to `n` successive calls of `Recv`, stopping at the first call that would
block, and the world after them. -/
def RecvN {F W : Type} : Nat → World F W → List (String × F) × World F W
  | 0, w => ([], w)
  | n + 1, w =>
    match Recv w with
    | none => ([], w)
    | some (m, w1) =>
      let r := RecvN n w1
      (m :: r.1, r.2)

/-- Where the loop stands with respect to a read `r` that fails with `e`, reached through
reads without error, in a run with calls of `Recv` in between: either the loop has not ended,
the hook `hook` is registered, no further call of the close hook is on record (`n0` calls),
connection `c` has its `k0` calls of `Close`, and the unread results are reads without error
followed by `r` and `rest`; or the loop has ended with no further call of the hook; or the
loop has ended with `rest` unread, one more call of the hook as the last event, with `id` and
`e`, and one more `Close` of `c`. -/
def hookInv {F W : Type} (c : Nat) (id : String) (r : RecvResult) (rest : List RecvResult)
    (hook : CloseHook W) (e : GoError) (n0 k0 : Nat) (s : LoopSys F W) : Prop :=
  (s.ended = false ∧ s.world.d.closeHookFunc = some hook ∧
    s.world.events.countP Event.isCloseHook = n0 ∧ (s.world.conns c).closed = k0 ∧
    ∃ front, s.unread = front ++ r :: rest ∧ ∀ x ∈ front, x.err = none) ∨
  (s.ended = true ∧ s.world.events.countP Event.isCloseHook = n0) ∨
  (s.ended = true ∧ s.unread = rest ∧
    s.world.events.countP Event.isCloseHook = n0 + 1 ∧
    s.world.events.getLast? = some (.closeHook id e) ∧ (s.world.conns c).closed = k0 + 1)

/-! ## Concrete instances

Used to evaluate the definitions on explicit inputs. -/

/-- Frames of the instance `demoLib`. -/
inductive DemoFrame where
  | ping (interval : Int)
  | pong (facts : Facts) (err : Option GoError)
  | basic (typ : Int) (payload : Bytes)

/-- Modelled from the spec: the package `dispatch/frame` (`ParseOpcode`, `UnMarshalBasic`,
`NewPing`, `NewPong`, `Opcode`, `Marshal`, `BasicCtrlCode`, `PingPongCtrlCode`), which is
not among the sources.  The spec fixes that one opcode byte carries a frame type and a control
code, that Basic and PingPong are two control codes, and that an opcode can decode to a
control code that is neither; the layout chosen here keeps the control code in the low four
bits and the type in the high four bits.  A Basic payload decodes unless it is empty.  The
logger appends the format string to the outside world, a list of lines. -/
def demoLib : Externals DemoFrame (List String) :=
  { BasicCtrlCode := 0
    PingPongCtrlCode := 1
    ctrl_ne := by decide
    ParseOpcode := fun op => (op / 16, op % 16)
    UnMarshalBasic := fun typ data =>
      if data = [] then .error (.msg "empty payload") else .ok (.basic typ data)
    NewPing := fun t => .ping t
    NewPong := fun facts err => .pong facts err
    Opcode := fun f =>
      match f with
      | .ping _ => 17
      | .pong _ _ => 33
      | .basic typ _ => typ * 16
    Marshal := fun f =>
      match f with
      | .ping t => [toByte t]
      | .pong _ _ => []
      | .basic _ payload => payload
    GOMAXPROCS := 4
    logPrint := fun format _ lines => lines ++ [format] }

/-- A provider that writes the fact `cpu` and succeeds. -/
def demoP1 : GetMachineFunc := fun m => (m.set "cpu" "4", none)

/-- A provider that writes the fact `mem` and then returns an error. -/
def demoP2 : GetMachineFunc := fun m => (m.set "mem" "1", some (.msg "no meminfo"))

/-- A provider that writes the fact `disk` and succeeds. -/
def demoP3 : GetMachineFunc := fun m => (m.set "disk" "9", none)

/-- A dispatcher with the three providers `demoP1`, `demoP2`, `demoP3` registered. -/
def demoD3 : linkDispatch DemoFrame (List String) :=
  { NewLinkedByDefaultCluster demoLib with MachineInfo := [demoP1, demoP2, demoP3] }

/-- A connection on which nothing was written yet, every write succeeds, and `Close` was not
called. -/
def freshConn : Conn := { written := [], writeResult := fun _ => none, closed := 0 }

/-- A world right after `NewLinkedByDefaultCluster`: no connection dialled; a dial of
`:12306` succeeds and every other dial fails; `ids.New` hands out `id0`, then `id1`, then
`idN`. -/
def demoWorld0 : World DemoFrame (List String) :=
  { d := NewLinkedByDefaultCluster demoLib
    conns := fun _ => freshConn
    nextConn := 0
    dialResult := fun _ addr =>
      if addr = ":12306" then none else some (.msg "connection refused")
    dialed := []
    newId := fun n => if n = 0 then "id0" else if n = 1 then "id1" else "idN"
    idCount := 0
    events := []
    ext := [] }

/-- A close hook that records its connection id in the outside world. -/
def demoHook : CloseHook (List String) := fun connID _ lines => lines ++ ["hook " ++ connID]

/-- A configuration with the manager at `:12306` and a heartbeat of 50 ms. -/
def demoConfig : Config := fun k =>
  if k = "managerAddr" then some (.str ":12306")
  else if k = "pingpongTime" then some (.duration 50000000)
  else none

/-- A configuration whose manager address `down:1` cannot be dialled in `demoWorld0`. -/
def demoConfigDown : Config := fun k =>
  if k = "managerAddr" then some (.str "down:1")
  else if k = "pingpongTime" then some (.duration 50000000)
  else none

/-- The world after `Link(demoConfig)` on the fresh dispatcher. -/
def demoLinked : World DemoFrame (List String) := (Link demoLib demoConfig demoWorld0).1

/-- The world after the receive loop launched by that `Link` has started on connection 0 and
waits for its first frame. -/
def demoRunning : World DemoFrame (List String) :=
  (work demoLib 0 50000000 [] demoLinked).1

/-- The world after a second `Link(demoConfig)` while the first loop is still waiting. -/
def demoLinkedTwice : World DemoFrame (List String) :=
  (Link demoLib demoConfig demoRunning).1

/-- A fresh world whose dispatcher has the three providers of `demoD3` registered. -/
def demoWorld3 : World DemoFrame (List String) := { demoWorld0 with d := demoD3 }

/-- A read that delivers a frame with opcode 17: type 1, control code PingPong. -/
def readPing : RecvResult := { opcode := 17, data := [], err := none }

/-- A read that delivers a frame with opcode 16: type 1, control code Basic. -/
def readBasic (payload : Bytes) : RecvResult := { opcode := 16, data := payload, err := none }

/-- A read that delivers a frame with opcode 2: control code 2, which is not assigned. -/
def readUnknown : RecvResult := { opcode := 2, data := [], err := none }

/-- Twelve reads that each deliver a Basic frame, two more than the channel has room for. -/
def readsTwelve : List RecvResult := List.replicate 12 (readBasic [7])

/-- A read that fails with an I/O error. -/
def readEOF : RecvResult := { opcode := 0, data := [], err := some (.msg "EOF") }

/-- A configuration with the manager at `:12306` and a heartbeat interval of `2 ^ 62`
nanoseconds, a value of `time.Duration`. -/
def demoConfigHuge : Config := fun k =>
  if k = "managerAddr" then some (.str ":12306")
  else if k = "pingpongTime" then some (.duration (2 ^ 62))
  else none

/-- The world after `Link(demoConfigHuge)` on the fresh dispatcher. -/
def demoLinkedHuge : World DemoFrame (List String) :=
  (Link demoLib demoConfigHuge demoWorld0).1

/-- The world `demoRunning` after `Hook("close", demoHook)`. -/
def demoHooked : World DemoFrame (List String) :=
  (Hook "close" (.closeFunc (some demoHook)) demoRunning).1

/-! ## Theorems -/

/-! ### Machine-info providers -/

theorem getMachineInfoLoop_allSucceed (fs : List GetMachineFunc) (m : Facts)
    (h : allSucceed fs m) :
    getMachineInfoLoop fs m = (applyAll fs m, none, fs.length) := by
  induction fs generalizing m with
  | nil => simp [getMachineInfoLoop, applyAll]
  | cons f rest ih =>
    obtain ⟨h1, h2⟩ := h
    rcases hf : f m with ⟨m1, _ | e⟩
    · rw [hf] at h2
      simp [getMachineInfoLoop, hf, ih m1 h2, applyAll]
    · rw [hf] at h1
      simp at h1

theorem getMachineInfoLoop_firstFailure (front : List GetMachineFunc) (p : GetMachineFunc)
    (rest : List GetMachineFunc) (m : Facts) (e : GoError)
    (h : allSucceed front m) (hp : (p (applyAll front m)).2 = some e) :
    getMachineInfoLoop (front ++ p :: rest) m
      = ((p (applyAll front m)).1, some e, front.length + 1) := by
  induction front generalizing m with
  | nil =>
    simp only [applyAll, List.foldl_nil] at hp
    rcases hf : p m with ⟨m1, r⟩
    rw [hf] at hp
    simp only at hp
    subst hp
    simp [getMachineInfoLoop, hf, applyAll]
  | cons f front ih =>
    obtain ⟨h1, h2⟩ := h
    rcases hf : f m with ⟨m1, _ | e1⟩
    · rw [hf] at h2
      have hp1 : (p (applyAll front m1)).2 = some e := by
        simpa [applyAll, hf] using hp
      simp [getMachineInfoLoop, hf, ih m1 h2 hp1, applyAll]
    · rw [hf] at h1
      simp at h1

theorem allSucceed_or_firstFailure (fs : List GetMachineFunc) (m : Facts) :
    allSucceed fs m ∨
      ∃ front p rest e, fs = front ++ p :: rest ∧ allSucceed front m ∧
        (p (applyAll front m)).2 = some e := by
  induction fs generalizing m with
  | nil => exact Or.inl trivial
  | cons f rest ih =>
    rcases hf : (f m).2 with _ | e
    · rcases ih (f m).1 with h | ⟨front, p, rest1, e, h1, h2, h3⟩
      · exact Or.inl ⟨hf, h⟩
      · refine Or.inr ⟨f :: front, p, rest1, e, by simp [h1], ⟨hf, h2⟩, ?_⟩
        simpa [applyAll] using h3
    · exact Or.inr ⟨[], f, rest, e, rfl, trivial, by simpa [applyAll] using hf⟩

/-- C2: `getMachineInfo` starts from the empty map and runs the providers in registration
order.  If every provider returns nil, the result is the map after all of them and a nil
error, and all were invoked.  If `p` is the first provider that returns an error `e`, the
result is the map as `p` left it and `e`, and exactly the providers up to and including `p`
were invoked.  One of the two cases always applies. -/
theorem getMachineInfo_runs_in_registration_order {F W : Type} (d : linkDispatch F W) :
    (allSucceed d.MachineInfo Facts.empty →
        getMachineInfo d = (applyAll d.MachineInfo Facts.empty, none) ∧
        getMachineInfoCalls d = d.MachineInfo.length) ∧
    (∀ front p rest e, d.MachineInfo = front ++ p :: rest →
        allSucceed front Facts.empty → (p (applyAll front Facts.empty)).2 = some e →
        getMachineInfo d = ((p (applyAll front Facts.empty)).1, some e) ∧
        getMachineInfoCalls d = front.length + 1) ∧
    (allSucceed d.MachineInfo Facts.empty ∨
      ∃ front p rest e, d.MachineInfo = front ++ p :: rest ∧
        allSucceed front Facts.empty ∧ (p (applyAll front Facts.empty)).2 = some e) := by
  refine ⟨?_, ?_, allSucceed_or_firstFailure _ _⟩
  · intro h
    simp [getMachineInfo, getMachineInfoCalls, getMachineInfoLoop_allSucceed _ _ h]
  · intro front p rest e hd h hp
    simp [getMachineInfo, getMachineInfoCalls, hd,
      getMachineInfoLoop_firstFailure front p rest _ e h hp]

/-- Witness of C2: on the three providers `demoP1`, `demoP2`, `demoP3` the second one fails,
two providers are invoked; on the default dispatcher the single provider succeeds. -/
theorem getMachineInfo_runs_in_registration_order_witness :
    (getMachineInfo demoD3
        = ((demoP2 (applyAll [demoP1] Facts.empty)).1, some (.msg "no meminfo")) ∧
      getMachineInfoCalls demoD3 = 2) ∧
    (getMachineInfo (NewLinkedByDefaultCluster demoLib)
        = (applyAll [cpuProvider 4] Facts.empty, none) ∧
      getMachineInfoCalls (NewLinkedByDefaultCluster demoLib) = 1) :=
  ⟨(getMachineInfo_runs_in_registration_order demoD3).2.1 [demoP1] demoP2 [demoP3]
      (.msg "no meminfo") rfl ⟨rfl, trivial⟩ rfl,
   (getMachineInfo_runs_in_registration_order (NewLinkedByDefaultCluster demoLib)).1
      ⟨rfl, trivial⟩⟩

/-- C3, as stated, fails: with `demoP1`, `demoP2`, `demoP3` registered, the first provider
succeeds and the second returns an error after writing the fact `mem`; the map returned by
`getMachineInfo` holds `mem`, the map of the first provider alone does not. -/
theorem getMachineInfo_second_fails_counterexample :
    demoD3.MachineInfo = [demoP1, demoP2, demoP3] ∧
    (demoP1 Facts.empty).2 = none ∧
    (demoP2 (demoP1 Facts.empty).1).2 = some (.msg "no meminfo") ∧
    (getMachineInfo demoD3).1 "mem" = some "1" ∧
    (demoP1 Facts.empty).1 "mem" = none ∧
    (getMachineInfo demoD3).1 ≠ (demoP1 Facts.empty).1 := by
  refine ⟨rfl, rfl, rfl, rfl, rfl, ?_⟩
  intro h
  have h2 := congrFun h "mem"
  have h3 : (getMachineInfo demoD3).1 "mem" = some "1" := rfl
  have h4 : (demoP1 Facts.empty).1 "mem" = none := rfl
  rw [h3, h4] at h2
  exact Option.noConfusion h2

/-- C3, amended: with three providers registered, the first succeeding and the second
returning the error `e`, `getMachineInfo` returns the map as the second provider left it
(which is the map of the first provider alone whenever the second leaves the map as it
found it) together with `e`, and the third provider is not invoked. -/
theorem getMachineInfo_second_of_three_fails {F W : Type} (d : linkDispatch F W)
    (p1 p2 p3 : GetMachineFunc) (e : GoError)
    (hd : d.MachineInfo = [p1, p2, p3])
    (h1 : (p1 Facts.empty).2 = none)
    (h2 : (p2 (p1 Facts.empty).1).2 = some e) :
    getMachineInfo d = ((p2 (p1 Facts.empty).1).1, some e) ∧
    ((p2 (p1 Facts.empty).1).1 = (p1 Facts.empty).1 →
      (getMachineInfo d).1 = (p1 Facts.empty).1) ∧
    getMachineInfoCalls d = 2 := by
  have h : getMachineInfoLoop [p1, p2, p3] Facts.empty
      = ((p2 (p1 Facts.empty).1).1, some e, 2) :=
    getMachineInfoLoop_firstFailure [p1] p2 [p3] Facts.empty e ⟨h1, trivial⟩
      (by simpa [applyAll] using h2)
  have hg : getMachineInfo d = ((p2 (p1 Facts.empty).1).1, some e) := by
    simp [getMachineInfo, hd, h]
  refine ⟨hg, ?_, ?_⟩
  · intro hsame
    rw [hg]
    exact hsame
  · simp [getMachineInfoCalls, hd, h]

/-- Witness of amended C3 on the providers `demoP1`, `demoP2`, `demoP3`. -/
theorem getMachineInfo_second_of_three_fails_witness :
    getMachineInfo demoD3
      = ((demoP2 (demoP1 Facts.empty).1).1, some (.msg "no meminfo")) ∧
    ((demoP2 (demoP1 Facts.empty).1).1 = (demoP1 Facts.empty).1 →
      (getMachineInfo demoD3).1 = (demoP1 Facts.empty).1) ∧
    getMachineInfoCalls demoD3 = 2 :=
  getMachineInfo_second_of_three_fails demoD3 demoP1 demoP2 demoP3 (.msg "no meminfo")
    rfl rfl rfl

/-! ### `SendTo` and `Hook` -/

/-- C1: when `connID` differs from the current `linkID`, `SendTo` returns a non-nil error and
leaves the world as it was; in particular no connection has a new entry in its log of
writes. -/
theorem SendTo_other_id_rejected {F W : Type} (L : Externals F W) (connID : String) (f : F)
    (w : World F W) (h : connID ≠ w.d.linkID) :
    (∃ e, (SendTo L connID f w).2 = .ret (some e)) ∧
    (SendTo L connID f w).1 = w ∧
    ∀ c, (((SendTo L connID f w).1).conns c).written = (w.conns c).written := by
  simp [SendTo, h]

/-- Witness of C1: the id `not-the-link-id` on a freshly built dispatcher. -/
theorem SendTo_other_id_rejected_witness :
    (∃ e, (SendTo demoLib "not-the-link-id" (.ping 5) demoWorld0).2 = .ret (some e)) ∧
    (SendTo demoLib "not-the-link-id" (.ping 5) demoWorld0).1 = demoWorld0 ∧
    ∀ c, (((SendTo demoLib "not-the-link-id" (.ping 5) demoWorld0).1).conns c).written
      = (demoWorld0.conns c).written :=
  SendTo_other_id_rejected demoLib "not-the-link-id" (.ping 5) demoWorld0 (by decide)

/-- C4: `Hook` returns exactly when the name is `close` and the handler has the type
`func(connID string, err error)`; then the close hook of the dispatcher is the handler and
nothing else changed.  In every other case `Hook` panics and the world, the registered
close hook included, is as before. -/
theorem Hook_accepts_only_close_func {F W : Type} (name : String) (h : HookArg W)
    (w : World F W) :
    ((∃ u, (Hook name h w).2 = .ret u) ↔ (name = "close" ∧ ∃ f, h = .closeFunc f)) ∧
    (∀ f, name = "close" → h = .closeFunc f →
      Hook name h w = ({ w with d := { w.d with closeHookFunc := f } }, .ret ())) ∧
    (¬ (name = "close" ∧ ∃ f, h = .closeFunc f) →
      (∃ p, (Hook name h w).2 = .panicked p) ∧ (Hook name h w).1 = w ∧
      ((Hook name h w).1).d.closeHookFunc = w.d.closeHookFunc) := by
  by_cases hn : name = "close"
  · subst hn
    cases h with
    | closeFunc f =>
      refine ⟨⟨fun _ => ⟨rfl, f, rfl⟩, fun _ => ⟨(), rfl⟩⟩, ?_, ?_⟩
      · intro f1 _ hf
        cases hf
        rfl
      · intro hneg
        exact absurd ⟨rfl, f, rfl⟩ hneg
    | int n =>
      refine ⟨⟨?_, ?_⟩, ?_, ?_⟩
      · rintro ⟨u, hu⟩
        simp [Hook] at hu
      · rintro ⟨_, f, hf⟩
        cases hf
      · intro f _ hf
        cases hf
      · intro _
        exact ⟨⟨_, rfl⟩, rfl, rfl⟩
    | nilIface =>
      refine ⟨⟨?_, ?_⟩, ?_, ?_⟩
      · rintro ⟨u, hu⟩
        simp [Hook] at hu
      · rintro ⟨_, f, hf⟩
        cases hf
      · intro f _ hf
        cases hf
      · intro _
        exact ⟨⟨_, rfl⟩, rfl, rfl⟩
    | other t =>
      refine ⟨⟨?_, ?_⟩, ?_, ?_⟩
      · rintro ⟨u, hu⟩
        simp [Hook] at hu
      · rintro ⟨_, f, hf⟩
        cases hf
      · intro f _ hf
        cases hf
      · intro _
        exact ⟨⟨_, rfl⟩, rfl, rfl⟩
  · refine ⟨⟨?_, ?_⟩, ?_, ?_⟩
    · rintro ⟨u, hu⟩
      simp [Hook, hn] at hu
    · rintro ⟨h1, _⟩
      exact absurd h1 hn
    · intro f h1 _
      exact absurd h1 hn
    · intro _
      simp [Hook, hn]

/-- Witness of C4: a valid handler is stored; the integer 123 and an unknown name panic and
keep the default hook. -/
theorem Hook_accepts_only_close_func_witness :
    Hook "close" (.closeFunc (some demoHook)) demoWorld0
      = ({ demoWorld0 with d := { demoWorld0.d with closeHookFunc := some demoHook } },
         .ret ()) ∧
    ((∃ p, (Hook "close" (.int 123) demoWorld0).2 = .panicked p) ∧
      (Hook "close" (.int 123) demoWorld0).1 = demoWorld0 ∧
      ((Hook "close" (.int 123) demoWorld0).1).d.closeHookFunc
        = demoWorld0.d.closeHookFunc) ∧
    ((∃ p, (Hook "unknown" (.closeFunc (some demoHook)) demoWorld0).2 = .panicked p) ∧
      (Hook "unknown" (.closeFunc (some demoHook)) demoWorld0).1 = demoWorld0 ∧
      ((Hook "unknown" (.closeFunc (some demoHook)) demoWorld0).1).d.closeHookFunc
        = demoWorld0.d.closeHookFunc) :=
  ⟨(Hook_accepts_only_close_func "close" (.closeFunc (some demoHook)) demoWorld0).2.1
      (some demoHook) rfl rfl,
   (Hook_accepts_only_close_func "close" (.int 123) demoWorld0).2.2
      (by rintro ⟨_, f, hf⟩; cases hf),
   (Hook_accepts_only_close_func "unknown" (.closeFunc (some demoHook)) demoWorld0).2.2
      (by rintro ⟨hn, _⟩; exact absurd hn (by decide))⟩

/-! ### `Link`, `ReLink` and the timeout handler -/

theorem Link_keeps_config {F W : Type} (L : Externals F W) (config : Config)
    (w : World F W) : ((Link L config w).1).d.config = w.d.config := by
  unfold Link
  cases configAddr config with
  | panicked p => rfl
  | ret addr =>
    cases configPingPong config with
    | panicked p => rfl
    | ret t =>
      simp only []
      cases w.dialResult w.dialed.length addr <;> rfl

theorem Link_success {F W : Type} (L : Externals F W) (config : Config) (w : World F W)
    (addr : String) (t : Int)
    (ha : configAddr config = .ret addr) (ht : configPingPong config = .ret t)
    (hd : w.dialResult w.dialed.length addr = none) :
    (Link L config w).2 = .ret none ∧
    ((Link L config w).1).d.linkedConn = some w.nextConn ∧
    ((Link L config w).1).events = w.events ++ [.goWork w.nextConn t] ∧
    ((Link L config w).1).dialed = w.dialed ++ [addr] ∧
    ((Link L config w).1).d.config = w.d.config ∧
    (((Link L config w).1).conns w.nextConn).written
      = (w.conns w.nextConn).written ++
          [(toByte (L.Opcode (L.NewPing t)), L.Marshal (L.NewPing t))] := by
  simp [Link, ha, ht, hd, connWrite]

/-- C10, as stated, fails: a `Link` whose dial fails changes `linkAddr` (from the empty
string to `down:1` on a fresh dispatcher) and replaces the registered providers (three
before the call, the single default one after it). -/
theorem Link_dial_failure_counterexample :
    demoWorld0.dialResult 0 "down:1" = some (.msg "connection refused") ∧
    (Link demoLib demoConfigDown demoWorld0).2
      = .ret (some (.berrWarp "dispatch" "link" (.msg "connection refused"))) ∧
    demoWorld0.d.linkAddr = "" ∧
    ((Link demoLib demoConfigDown demoWorld0).1).d.linkAddr = "down:1" ∧
    demoWorld3.d.MachineInfo.length = 3 ∧
    ((Link demoLib demoConfigDown demoWorld3).1).d.MachineInfo.length = 1 :=
  ⟨rfl, rfl, rfl, by decide, rfl, rfl⟩

/-- C10, amended: when the dial fails, `Link` returns the wrapped (non-nil) error; nothing is
written on any connection, nothing is launched (no event), and the owned connection, the link
id, the stored configuration, the queue and the close hook are as before.  What has changed
is what `Link` does before it dials: `MachineInfo` is the single default provider, `linkAddr`
is the address of the configuration, and the dial is on record. -/
theorem Link_dial_failure {F W : Type} (L : Externals F W) (config : Config) (w : World F W)
    (addr : String) (t : Int) (err : GoError)
    (ha : configAddr config = .ret addr) (ht : configPingPong config = .ret t)
    (hd : w.dialResult w.dialed.length addr = some err) :
    Link L config w
      = ({ w with d := { w.d with MachineInfo := [cpuProvider L.GOMAXPROCS], linkAddr := addr },
                  dialed := w.dialed ++ [addr] },
         .ret (some (.berrWarp "dispatch" "link" err))) ∧
    ((Link L config w).1).conns = w.conns ∧
    ((Link L config w).1).events = w.events ∧
    ((Link L config w).1).d.linkedConn = w.d.linkedConn ∧
    ((Link L config w).1).d.linkID = w.d.linkID ∧
    ((Link L config w).1).d.linkAddr = addr ∧
    ((Link L config w).1).d.MachineInfo = [cpuProvider L.GOMAXPROCS] := by
  have h : Link L config w
      = ({ w with d := { w.d with MachineInfo := [cpuProvider L.GOMAXPROCS], linkAddr := addr },
                  dialed := w.dialed ++ [addr] },
         .ret (some (.berrWarp "dispatch" "link" err))) := by
    simp [Link, ha, ht, hd]
  rw [h]
  exact ⟨rfl, rfl, rfl, rfl, rfl, rfl, rfl⟩

/-- Witness of amended C10: the address `down:1` on the fresh dispatcher. -/
theorem Link_dial_failure_witness :
    Link demoLib demoConfigDown demoWorld0
      = ({ demoWorld0 with
            d := { demoWorld0.d with
                    MachineInfo := [cpuProvider demoLib.GOMAXPROCS], linkAddr := "down:1" },
            dialed := demoWorld0.dialed ++ ["down:1"] },
         .ret (some (.berrWarp "dispatch" "link" (.msg "connection refused")))) ∧
    ((Link demoLib demoConfigDown demoWorld0).1).conns = demoWorld0.conns ∧
    ((Link demoLib demoConfigDown demoWorld0).1).events = demoWorld0.events ∧
    ((Link demoLib demoConfigDown demoWorld0).1).d.linkedConn = demoWorld0.d.linkedConn ∧
    ((Link demoLib demoConfigDown demoWorld0).1).d.linkID = demoWorld0.d.linkID ∧
    ((Link demoLib demoConfigDown demoWorld0).1).d.linkAddr = "down:1" ∧
    ((Link demoLib demoConfigDown demoWorld0).1).d.MachineInfo
      = [cpuProvider demoLib.GOMAXPROCS] :=
  Link_dial_failure demoLib demoConfigDown demoWorld0 "down:1" 50000000
    (.msg "connection refused") rfl rfl rfl

/-- C5 on the code: `Link(demoConfig)` on a fresh dispatcher succeeds (it dials `:12306` and
launches the loop with 50 ms), yet the stored configuration is still the empty one, so the
following `ReLink` dials the empty address with a zero interval and returns false. -/
theorem Link_does_not_record_config :
    (Link demoLib demoConfig demoWorld0).2 = .ret none ∧
    demoLinked.dialed = [":12306"] ∧
    demoLinked.events = [.goWork 0 50000000] ∧
    demoConfig "managerAddr" = some (.str ":12306") ∧
    demoLinked.d.config "managerAddr" = none ∧
    demoLinked.d.config "pingpongTime" = none ∧
    ((ReLink demoLib demoLinked).1).dialed = [":12306", ""] ∧
    (ReLink demoLib demoLinked).2 = .ret false ∧
    (Link demoLib demoLinked.d.config demoLinked).2
      = .ret (some (.berrWarp "dispatch" "link" (.msg "connection refused"))) :=
  ⟨rfl, by decide, by decide, rfl, rfl, rfl, by decide, rfl, rfl⟩

/-- C7, as stated, fails: with the hook `demoHook` registered and connection 0 owned, the
timeout handler closes connection 0 and that is all: no call of the close hook is recorded
and the outside world, on which the hook would act, is as before. -/
theorem isTimeOut_hook_counterexample :
    demoHooked.d.linkedConn = some 0 ∧
    (((isTimeOut demoHooked).1).conns 0).closed = (demoHooked.conns 0).closed + 1 ∧
    ((isTimeOut demoHooked).1).events = demoHooked.events ∧
    (∀ connID err, Event.closeHook connID err ∉ ((isTimeOut demoHooked).1).events) ∧
    ((isTimeOut demoHooked).1).ext = demoHooked.ext ∧
    ((isTimeOut demoHooked).1).ext ≠ demoHook "id0" (.msg "not receive ping") demoHooked.ext := by
  refine ⟨by decide, by decide, by decide, ?_, by decide, by decide⟩
  intro connID err hmem
  have h : ((isTimeOut demoHooked).1).events
      = [.goWork 0 50000000, .timerNew 100000000, .goIsTimeOut] := by decide
  rw [h] at hmem
  simp at hmem

/-- C7, amended: once the timer has fired, the timeout handler closes the connection the
dispatcher owns and does nothing else: the close hook is not called (no event, the outside
world unchanged), the dispatcher record and every other connection are as before. -/
theorem isTimeOut_closes_connection_only {F W : Type} (w : World F W) (c : Nat)
    (h : w.d.linkedConn = some c) :
    isTimeOut w = (connClose w c, .ret ()) ∧
    (((isTimeOut w).1).conns c).closed = (w.conns c).closed + 1 ∧
    (∀ c1, c1 ≠ c → ((isTimeOut w).1).conns c1 = w.conns c1) ∧
    ((isTimeOut w).1).events = w.events ∧
    ((isTimeOut w).1).ext = w.ext ∧
    ((isTimeOut w).1).d = w.d := by
  have h1 : isTimeOut w = (connClose w c, .ret ()) := by
    simp [isTimeOut, Close, h]
  rw [h1]
  refine ⟨rfl, ?_, ?_, rfl, rfl, rfl⟩
  · simp [connClose]
  · intro c1 hc
    simp [connClose, Function.update_noteq hc]

/-- Witness of amended C7 on the world `demoHooked`, which owns connection 0. -/
theorem isTimeOut_closes_connection_only_witness :
    isTimeOut demoHooked = (connClose demoHooked 0, .ret ()) ∧
    (((isTimeOut demoHooked).1).conns 0).closed = (demoHooked.conns 0).closed + 1 ∧
    (∀ c1, c1 ≠ 0 → ((isTimeOut demoHooked).1).conns c1 = demoHooked.conns c1) ∧
    ((isTimeOut demoHooked).1).events = demoHooked.events ∧
    ((isTimeOut demoHooked).1).ext = demoHooked.ext ∧
    ((isTimeOut demoHooked).1).d = demoHooked.d :=
  isTimeOut_closes_connection_only demoHooked 0 (by decide)

/-! ### The receive loop: one iteration -/

theorem mulDuration_two_exact (t : Int) (h1 : -(2 ^ 62) ≤ t) (h2 : t < 2 ^ 62) :
    mulDuration 2 t = 2 * t := by
  simp only [mulDuration, wrapInt64]
  omega

theorem workBody_basic {F W : Type} (L : Externals F W) (c : Nat) (id : String)
    (ppt : Int) (r : RecvResult) (w : World F W) (f : F)
    (herr : r.err = none) (hc : ctrlOf L r = L.BasicCtrlCode)
    (hf : L.UnMarshalBasic (typOf L r) r.data = .ok f) :
    workBody L c id ppt r w = (w, .send { connID := id, f := f }) := by
  simp only [ctrlOf] at hc
  simp only [typOf] at hf
  simp [workBody, herr, hc, hf]

theorem workBody_pingpong {F W : Type} (L : Externals F W) (c : Nat) (id : String)
    (ppt : Int) (r : RecvResult) (w : World F W) (lc : Nat)
    (herr : r.err = none) (hc : ctrlOf L r = L.PingPongCtrlCode)
    (hconn : w.d.linkedConn = some lc) :
    ∃ w1 : World F W,
      workBody L c id ppt r w = (w1, .next) ∧
      w1.d = w.d ∧
      w1.events = w.events ++ [.timerReset (mulDuration 2 ppt)] ∧
      (w1.conns lc).written = (w.conns lc).written ++
        [(toByte (L.Opcode (L.NewPong (getMachineInfo w.d).1 (getMachineInfo w.d).2)),
          L.Marshal (L.NewPong (getMachineInfo w.d).1 (getMachineInfo w.d).2))] ∧
      (∀ c1, c1 ≠ lc → w1.conns c1 = w.conns c1) ∧
      (∀ c1, (w1.conns c1).closed = (w.conns c1).closed) ∧
      (((w.conns lc).writeResult (w.conns lc).written.length = none ∧ w1.ext = w.ext) ∨
        ∃ err, (w.conns lc).writeResult (w.conns lc).written.length = some err ∧
          w1.ext = L.logPrint "sendPong err" [.err (some err)] w.ext) := by
  simp only [ctrlOf] at hc
  have hne : ¬ (L.PingPongCtrlCode = L.BasicCtrlCode) := fun h => L.ctrl_ne h.symm
  rcases hres : (w.conns lc).writeResult (w.conns lc).written.length with _ | err
  · refine ⟨{ w with
        events := w.events ++ [.timerReset (mulDuration 2 ppt)],
        conns := Function.update w.conns lc
          { w.conns lc with
            written := (w.conns lc).written ++
              [(toByte (L.Opcode (L.NewPong (getMachineInfo w.d).1 (getMachineInfo w.d).2)),
                L.Marshal (L.NewPong (getMachineInfo w.d).1 (getMachineInfo w.d).2))] } },
      ?_, rfl, rfl, ?_, ?_, ?_, Or.inl ⟨rfl, rfl⟩⟩
    · simp only [workBody, herr, hc, hne, if_false, if_true, Send, hconn, connWrite, hres]
    · simp
    · intro c1 h
      simp [Function.update_noteq h]
    · intro c1
      by_cases h : c1 = lc
      · subst h
        simp
      · simp [Function.update_noteq h]
  · refine ⟨{ w with
        events := w.events ++ [.timerReset (mulDuration 2 ppt)],
        conns := Function.update w.conns lc
          { w.conns lc with
            written := (w.conns lc).written ++
              [(toByte (L.Opcode (L.NewPong (getMachineInfo w.d).1 (getMachineInfo w.d).2)),
                L.Marshal (L.NewPong (getMachineInfo w.d).1 (getMachineInfo w.d).2))] },
        ext := L.logPrint "sendPong err" [.err (some err)] w.ext },
      ?_, rfl, rfl, ?_, ?_, ?_, Or.inr ⟨err, rfl, rfl⟩⟩
    · simp only [workBody, herr, hc, hne, if_false, if_true, Send, hconn, connWrite, hres]
    · simp
    · intro c1 h
      simp [Function.update_noteq h]
    · intro c1
      by_cases h : c1 = lc
      · subst h
        simp
      · simp [Function.update_noteq h]

theorem workBody_error {F W : Type} (L : Externals F W) (c : Nat) (id : String)
    (ppt : Int) (r : RecvResult) (w : World F W) (hook : CloseHook W) (e : GoError)
    (herr : r.err = some e) (hhook : w.d.closeHookFunc = some hook) :
    workBody L c id ppt r w
      = ({ connClose w c with
            ext := hook id e w.ext, events := w.events ++ [.closeHook id e] },
         .returned) := by
  simp [workBody, herr, connClose, hhook]

theorem workBody_decode_panic {F W : Type} (L : Externals F W) (c : Nat) (id : String)
    (ppt : Int) (r : RecvResult) (w : World F W) (e : GoError)
    (herr : r.err = none) (hc : ctrlOf L r = L.BasicCtrlCode)
    (hf : L.UnMarshalBasic (typOf L r) r.data = .error e) :
    workBody L c id ppt r w = (w, .panicked (.error e)) := by
  simp only [ctrlOf] at hc
  simp only [typOf] at hf
  simp [workBody, herr, hc, hf]

theorem workBody_unknown_ctrl_panic {F W : Type} (L : Externals F W) (c : Nat) (id : String)
    (ppt : Int) (r : RecvResult) (w : World F W)
    (herr : r.err = none) (hb : ctrlOf L r ≠ L.BasicCtrlCode)
    (hp : ctrlOf L r ≠ L.PingPongCtrlCode) :
    workBody L c id ppt r w
      = (w, .panicked (.error (.berrNewF "dispatch" "recv" "ctrl code [%s] not support"
          (ctrlOf L r)))) := by
  simp only [ctrlOf] at hb hp
  simp [workBody, herr, hb, hp, ctrlOf]

theorem workBody_nil_conn_panic {F W : Type} (L : Externals F W) (c : Nat) (id : String)
    (ppt : Int) (r : RecvResult) (w : World F W)
    (herr : r.err = none) (hc : ctrlOf L r = L.PingPongCtrlCode)
    (hconn : w.d.linkedConn = none) :
    workBody L c id ppt r w
      = ({ w with events := w.events ++ [.timerReset (mulDuration 2 ppt)] },
         .panicked nilDeref) := by
  simp only [ctrlOf] at hc
  have hne : ¬ (L.PingPongCtrlCode = L.BasicCtrlCode) := fun h => L.ctrl_ne h.symm
  simp only [workBody, herr, hc, hne, if_false, if_true, Send, hconn]

theorem workLoop_basic_step {F W : Type} (L : Externals F W) (c : Nat) (id : String)
    (ppt : Int) (r : RecvResult) (rest : List RecvResult) (w : World F W) (f : F)
    (herr : r.err = none) (hc : ctrlOf L r = L.BasicCtrlCode)
    (hf : L.UnMarshalBasic (typOf L r) r.data = .ok f)
    (hroom : w.d.msgCh.length < w.d.msgChCap) :
    workLoop L c id ppt (r :: rest) w
      = workLoop L c id ppt rest
          { w with d := { w.d with msgCh := w.d.msgCh ++ [{ connID := id, f := f }] } } := by
  simp only [workLoop, workBody_basic L c id ppt r w f herr hc hf, chanSend, hroom, if_true]

theorem workLoop_basic_full {F W : Type} (L : Externals F W) (c : Nat) (id : String)
    (ppt : Int) (r : RecvResult) (rest : List RecvResult) (w : World F W) (f : F)
    (herr : r.err = none) (hc : ctrlOf L r = L.BasicCtrlCode)
    (hf : L.UnMarshalBasic (typOf L r) r.data = .ok f)
    (hfull : ¬ w.d.msgCh.length < w.d.msgChCap) :
    workLoop L c id ppt (r :: rest) w = (w, .blockedInSend r rest) := by
  simp only [workLoop, workBody_basic L c id ppt r w f herr hc hf, hfull, if_false]

theorem workLoop_pingpong_step {F W : Type} (L : Externals F W) (c : Nat) (id : String)
    (ppt : Int) (r : RecvResult) (rest : List RecvResult) (w : World F W) (lc : Nat)
    (herr : r.err = none) (hc : ctrlOf L r = L.PingPongCtrlCode)
    (hconn : w.d.linkedConn = some lc) :
    ∃ w1 : World F W,
      workLoop L c id ppt (r :: rest) w = workLoop L c id ppt rest w1 ∧
      w1.d = w.d ∧
      w1.events = w.events ++ [.timerReset (mulDuration 2 ppt)] ∧
      (w1.conns lc).written = (w.conns lc).written ++
        [(toByte (L.Opcode (L.NewPong (getMachineInfo w.d).1 (getMachineInfo w.d).2)),
          L.Marshal (L.NewPong (getMachineInfo w.d).1 (getMachineInfo w.d).2))] ∧
      (∀ c1, c1 ≠ lc → w1.conns c1 = w.conns c1) ∧
      (∀ c1, (w1.conns c1).closed = (w.conns c1).closed) ∧
      (((w.conns lc).writeResult (w.conns lc).written.length = none ∧ w1.ext = w.ext) ∨
        ∃ err, (w.conns lc).writeResult (w.conns lc).written.length = some err ∧
          w1.ext = L.logPrint "sendPong err" [.err (some err)] w.ext) := by
  obtain ⟨w1, hb, h⟩ := workBody_pingpong L c id ppt r w lc herr hc hconn
  exact ⟨w1, by simp only [workLoop, hb], h⟩

theorem workLoop_error_step {F W : Type} (L : Externals F W) (c : Nat) (id : String)
    (ppt : Int) (r : RecvResult) (rest : List RecvResult) (w : World F W)
    (hook : CloseHook W) (e : GoError)
    (herr : r.err = some e) (hhook : w.d.closeHookFunc = some hook) :
    workLoop L c id ppt (r :: rest) w
      = ({ connClose w c with
            ext := hook id e w.ext, events := w.events ++ [.closeHook id e] },
         .returned rest) := by
  simp only [workLoop, workBody_error L c id ppt r w hook e herr hhook]

theorem workLoop_decode_panic {F W : Type} (L : Externals F W) (c : Nat) (id : String)
    (ppt : Int) (r : RecvResult) (rest : List RecvResult) (w : World F W) (e : GoError)
    (herr : r.err = none) (hc : ctrlOf L r = L.BasicCtrlCode)
    (hf : L.UnMarshalBasic (typOf L r) r.data = .error e) :
    workLoop L c id ppt (r :: rest) w = (w, .panicked (.error e) rest) := by
  simp only [workLoop, workBody_decode_panic L c id ppt r w e herr hc hf]

theorem workLoop_unknown_ctrl_panic {F W : Type} (L : Externals F W) (c : Nat) (id : String)
    (ppt : Int) (r : RecvResult) (rest : List RecvResult) (w : World F W)
    (herr : r.err = none) (hb : ctrlOf L r ≠ L.BasicCtrlCode)
    (hp : ctrlOf L r ≠ L.PingPongCtrlCode) :
    workLoop L c id ppt (r :: rest) w
      = (w, .panicked (.error (.berrNewF "dispatch" "recv" "ctrl code [%s] not support"
          (ctrlOf L r))) rest) := by
  simp only [workLoop, workBody_unknown_ctrl_panic L c id ppt r w herr hb hp]

theorem workLoop_nil_conn_panic {F W : Type} (L : Externals F W) (c : Nat) (id : String)
    (ppt : Int) (r : RecvResult) (rest : List RecvResult) (w : World F W)
    (herr : r.err = none) (hc : ctrlOf L r = L.PingPongCtrlCode)
    (hconn : w.d.linkedConn = none) :
    (workLoop L c id ppt (r :: rest) w).2 = .panicked nilDeref rest := by
  simp only [workLoop, workBody_nil_conn_panic L c id ppt r w herr hc hconn]

/-! ### The receive loop: whole runs -/

theorem RecvN_eq_take {F W : Type} (n : Nat) (w : World F W) :
    (RecvN n w).1 = (w.d.msgCh.take n).map (fun m => (m.connID, m.f)) := by
  induction n generalizing w with
  | zero => simp [RecvN]
  | succ n ih =>
    rcases hq : w.d.msgCh with _ | ⟨m, q⟩
    · simp [RecvN, Recv, hq]
    · simp [RecvN, Recv, hq, ih]

theorem basicRecords_cons_basic {F W : Type} (L : Externals F W) (id : String)
    (r : RecvResult) (rs : List RecvResult) (f : F)
    (hc : ctrlOf L r = L.BasicCtrlCode)
    (hf : L.UnMarshalBasic (typOf L r) r.data = .ok f) :
    basicRecords L id (r :: rs) = { connID := id, f := f } :: basicRecords L id rs := by
  simp [basicRecords, List.filterMap_cons, hc, hf]

theorem basicRecords_cons_other {F W : Type} (L : Externals F W) (id : String)
    (r : RecvResult) (rs : List RecvResult) (hc : ctrlOf L r ≠ L.BasicCtrlCode) :
    basicRecords L id (r :: rs) = basicRecords L id rs := by
  simp [basicRecords, List.filterMap_cons, hc]

theorem framesOk_tail {F W : Type} (L : Externals F W) (r : RecvResult)
    (rs : List RecvResult) (h : framesOk L (r :: rs)) : framesOk L rs :=
  fun x hx => h x (List.mem_cons_of_mem _ hx)

theorem pingpong_ne_basic {F W : Type} (L : Externals F W) (r : RecvResult)
    (hp : ctrlOf L r = L.PingPongCtrlCode) : ctrlOf L r ≠ L.BasicCtrlCode := by
  rw [hp]
  exact fun h => L.ctrl_ne h.symm

theorem basicRecords_are_the_basic_frames {F W : Type} (L : Externals F W) (id : String)
    (reads : List RecvResult) (h : framesOk L reads) :
    List.Forall₂ (recordOf L id) (reads.filter (isBasicRead L)) (basicRecords L id reads) := by
  induction reads with
  | nil => simp [basicRecords]
  | cons r rs ih =>
    obtain ⟨_, hctrl, hdec⟩ := h r (List.mem_cons_self _ _)
    have ih1 := ih (framesOk_tail L r rs h)
    rcases hctrl with hb | hp
    · obtain ⟨f, hf⟩ := hdec hb
      have hfilter : (r :: rs).filter (isBasicRead L) = r :: rs.filter (isBasicRead L) := by
        simp [List.filter, isBasicRead, hb]
      rw [hfilter, basicRecords_cons_basic L id r rs f hb hf]
      exact List.Forall₂.cons ⟨rfl, hf⟩ ih1
    · have hnb := pingpong_ne_basic L r hp
      have hfilter : (r :: rs).filter (isBasicRead L) = rs.filter (isBasicRead L) := by
        simp [List.filter, isBasicRead, hnb]
      rw [hfilter, basicRecords_cons_other L id r rs hnb]
      exact ih1

theorem basicRecords_append {F W : Type} (L : Externals F W) (id : String)
    (xs ys : List RecvResult) :
    basicRecords L id (xs ++ ys) = basicRecords L id xs ++ basicRecords L id ys := by
  simp [basicRecords, List.filterMap_append]

theorem workLoop_enqueues {F W : Type} (L : Externals F W) (c : Nat) (id : String)
    (ppt : Int) (lc : Nat) (reads : List RecvResult) :
    ∀ w : World F W, w.d.linkedConn = some lc → framesOk L reads →
      ((workLoop L c id ppt reads w).2 = .blocked ∧
        ((workLoop L c id ppt reads w).1).d.msgCh = w.d.msgCh ++ basicRecords L id reads) ∨
      (∃ front r u, reads = front ++ r :: u ∧
        (workLoop L c id ppt reads w).2 = .blockedInSend r u ∧
        ((workLoop L c id ppt reads w).1).d.msgCh = w.d.msgCh ++ basicRecords L id front ∧
        ctrlOf L r = L.BasicCtrlCode ∧
        w.d.msgChCap ≤ ((workLoop L c id ppt reads w).1).d.msgCh.length) := by
  induction reads with
  | nil =>
    intro w _ _
    exact Or.inl ⟨rfl, by simp [workLoop, basicRecords]⟩
  | cons r rs ih =>
    intro w hconn hok
    obtain ⟨herr1, hctrl, hdec⟩ := hok r (List.mem_cons_self _ _)
    have hok2 := framesOk_tail L r rs hok
    rcases hctrl with hb | hp
    · obtain ⟨f, hf⟩ := hdec hb
      by_cases hroom : w.d.msgCh.length < w.d.msgChCap
      · rw [workLoop_basic_step L c id ppt r rs w f herr1 hb hf hroom]
        rcases ih { w with d := { w.d with msgCh := w.d.msgCh ++ [{ connID := id, f := f }] } }
            hconn hok2 with ⟨hend, hms⟩ | ⟨front, r1, u, hsplit, hend, hms, hb1, hcap⟩
        · left
          refine ⟨hend, ?_⟩
          rw [hms, basicRecords_cons_basic L id r rs f hb hf]
          simp
        · right
          refine ⟨r :: front, r1, u, by simp [hsplit], hend, ?_, hb1, hcap⟩
          rw [hms, basicRecords_cons_basic L id r front f hb hf]
          simp
      · right
        rw [workLoop_basic_full L c id ppt r rs w f herr1 hb hf hroom]
        refine ⟨[], r, rs, rfl, rfl, by simp [basicRecords], hb, ?_⟩
        exact Nat.le_of_not_lt hroom
    · obtain ⟨w1, hstep, hd, _, _, _, _, _⟩ :=
        workLoop_pingpong_step L c id ppt r rs w lc herr1 hp hconn
      rw [hstep]
      have hconn1 : w1.d.linkedConn = some lc := by rw [hd]; exact hconn
      have hnb := pingpong_ne_basic L r hp
      rcases ih w1 hconn1 hok2 with ⟨hend, hms⟩ | ⟨front, r1, u, hsplit, hend, hms, hb1, hcap⟩
      · left
        refine ⟨hend, ?_⟩
        rw [hms, hd, basicRecords_cons_other L id r rs hnb]
      · right
        refine ⟨r :: front, r1, u, by simp [hsplit], hend, ?_, hb1, ?_⟩
        · rw [hms, hd, basicRecords_cons_other L id r front hnb]
        · rw [← hd]
          exact hcap

theorem workLoop_enqueues_room {F W : Type} (L : Externals F W) (c : Nat) (id : String)
    (ppt : Int) (lc : Nat) (reads : List RecvResult) (w : World F W)
    (hconn : w.d.linkedConn = some lc) (hok : framesOk L reads)
    (hroom : w.d.msgCh.length + (basicRecords L id reads).length ≤ w.d.msgChCap) :
    (workLoop L c id ppt reads w).2 = .blocked ∧
    ((workLoop L c id ppt reads w).1).d.msgCh = w.d.msgCh ++ basicRecords L id reads := by
  rcases workLoop_enqueues L c id ppt lc reads w hconn hok with
    h | ⟨front, r, u, hsplit, _, hms, hb, hcap⟩
  · exact h
  · exfalso
    obtain ⟨_, _, hdec⟩ := hok r (by rw [hsplit]; simp)
    obtain ⟨f, hf⟩ := hdec hb
    rw [hms] at hcap
    rw [hsplit, basicRecords_append, basicRecords_cons_basic L id r u f hb hf] at hroom
    simp only [List.length_append, List.length_cons] at hroom hcap
    omega

theorem workLoop_error_after {F W : Type} (L : Externals F W) (c : Nat) (id : String)
    (ppt : Int) (r : RecvResult) (rest : List RecvResult) (hook : CloseHook W) (e : GoError)
    (herr : r.err = some e) (front : List RecvResult) :
    ∀ w : World F W, (∀ x ∈ front, x.err = none) → w.d.closeHookFunc = some hook →
      (∃ p u, (workLoop L c id ppt (front ++ r :: rest) w).2 = .panicked p u) ∨
      (∃ x u, (workLoop L c id ppt (front ++ r :: rest) w).2 = .blockedInSend x u ∧
        w.d.msgChCap < w.d.msgCh.length + front.length ∧
        ((workLoop L c id ppt (front ++ r :: rest) w).1).events.countP Event.isCloseHook
          = w.events.countP Event.isCloseHook) ∨
      ((workLoop L c id ppt (front ++ r :: rest) w).2 = .returned rest ∧
        ((workLoop L c id ppt (front ++ r :: rest) w).1).events.countP Event.isCloseHook
          = w.events.countP Event.isCloseHook + 1 ∧
        ((workLoop L c id ppt (front ++ r :: rest) w).1).events.getLast?
          = some (.closeHook id e) ∧
        ((((workLoop L c id ppt (front ++ r :: rest) w).1).conns c).closed
          = (w.conns c).closed + 1)) := by
  induction front with
  | nil =>
    intro w _ hhook
    right
    right
    rw [List.nil_append, workLoop_error_step L c id ppt r rest w hook e herr hhook]
    refine ⟨rfl, ?_, ?_, ?_⟩
    · simp [connClose, List.countP_append, Event.isCloseHook]
    · simp [connClose]
    · simp [connClose]
  | cons x xs ih =>
    intro w hfront hhook
    have hx : x.err = none := hfront x (List.mem_cons_self _ _)
    have hxs : ∀ y ∈ xs, y.err = none := fun y hy => hfront y (List.mem_cons_of_mem _ hy)
    rw [List.cons_append]
    by_cases hb : ctrlOf L x = L.BasicCtrlCode
    · rcases hf : L.UnMarshalBasic (typOf L x) x.data with e1 | f
      · left
        rw [workLoop_decode_panic L c id ppt x _ w e1 hx hb hf]
        exact ⟨_, _, rfl⟩
      · by_cases hroom : w.d.msgCh.length < w.d.msgChCap
        · rw [workLoop_basic_step L c id ppt x _ w f hx hb hf hroom]
          rcases ih { w with d := { w.d with msgCh := w.d.msgCh ++ [{ connID := id, f := f }] } }
              hxs hhook with h | ⟨y, u, h1, h2, h3⟩ | h
          · exact Or.inl h
          · right
            left
            refine ⟨y, u, h1, ?_, h3⟩
            simp only [List.length_append, List.length_singleton] at h2
            simp only [List.length_cons]
            omega
          · exact Or.inr (Or.inr h)
        · right
          left
          rw [workLoop_basic_full L c id ppt x _ w f hx hb hf hroom]
          refine ⟨x, _, rfl, ?_, rfl⟩
          simp only [List.length_cons]
          omega
    · by_cases hp : ctrlOf L x = L.PingPongCtrlCode
      · rcases hconn : w.d.linkedConn with _ | lc
        · left
          exact ⟨_, _, workLoop_nil_conn_panic L c id ppt x _ w hx hp hconn⟩
        · obtain ⟨w1, hstep, hd, hev, _, _, hcl, _⟩ :=
            workLoop_pingpong_step L c id ppt x (xs ++ r :: rest) w lc hx hp hconn
          rw [hstep]
          have hhook1 : w1.d.closeHookFunc = some hook := by rw [hd]; exact hhook
          have hcount : w1.events.countP Event.isCloseHook
              = w.events.countP Event.isCloseHook := by
            rw [hev]
            simp [List.countP_append, Event.isCloseHook]
          rcases ih w1 hxs hhook1 with h | ⟨y, u, h1, h2, h3⟩ | ⟨h1, h2, h3, h4⟩
          · exact Or.inl h
          · right
            left
            refine ⟨y, u, h1, ?_, by rw [h3, hcount]⟩
            rw [hd] at h2
            simp only [List.length_cons]
            omega
          · right
            right
            refine ⟨h1, ?_, h3, ?_⟩
            · rw [h2, hcount]
            · rw [h4, hcl c]
      · left
        rw [workLoop_unknown_ctrl_panic L c id ppt x _ w hx hb hp]
        exact ⟨_, _, rfl⟩

/-! ### The loop and the callers of `Recv` side by side -/

theorem sysStart_inv {F W : Type} (L : Externals F W) (id : String) (lc : Nat)
    (reads : List RecvResult) (w : World F W)
    (hconn : w.d.linkedConn = some lc) (hok : framesOk L reads)
    (hlen : w.d.msgCh.length ≤ w.d.msgChCap) :
    sysInv L id lc w.d.msgChCap (pairsOf (w.d.msgCh ++ basicRecords L id reads))
      (sysStart w reads) := by
  refine ⟨rfl, hconn, rfl, hlen, hok, ?_⟩
  simp [sysStart, pairsOf]

theorem sysStep_inv {F W : Type} (L : Externals F W) (c : Nat) (id : String) (ppt : Int)
    (lc cap : Nat) (total : List (String × F)) (a : Action) (s : LoopSys F W)
    (h : sysInv L id lc cap total s) :
    sysInv L id lc cap total (sysStep L c id ppt a s) := by
  obtain ⟨world, unread, sending, ended, received⟩ := s
  obtain ⟨hend, hconn, hcap, hlen, hok, hcons⟩ := h
  simp only at hend hconn hcap hlen hok hcons
  subst hend
  cases a with
  | recv =>
    rcases hq : world.d.msgCh with _ | ⟨m, q⟩
    · have hstep : sysStep L c id ppt .recv ⟨world, unread, sending, false, received⟩
          = ⟨world, unread, sending, false, received⟩ := by
        simp [sysStep, Recv, hq]
      rw [hstep]
      exact ⟨rfl, hconn, hcap, hlen, hok, hcons⟩
    · have hstep : sysStep L c id ppt .recv ⟨world, unread, sending, false, received⟩
          = ⟨{ world with d := { world.d with msgCh := q } }, unread, sending, false,
              received ++ [(m.connID, m.f)]⟩ := by
        simp [sysStep, Recv, hq]
      rw [hstep]
      rw [hq] at hlen hcons
      refine ⟨rfl, hconn, hcap, ?_, hok, ?_⟩
      · simp only [List.length_cons] at hlen
        exact Nat.le_of_succ_le hlen
      · rw [← hcons]
        simp [pairsOf]
  | loop =>
    rcases hs : sending with _ | m
    · rcases hu : unread with _ | ⟨r, rest⟩
      · have hstep : sysStep L c id ppt .loop ⟨world, [], none, false, received⟩
            = ⟨world, [], none, false, received⟩ := by
          simp [sysStep]
        rw [hstep]
        subst hs hu
        exact ⟨rfl, hconn, hcap, hlen, hok, hcons⟩
      · subst hs hu
        obtain ⟨herr1, hctrl, hdec⟩ := hok r (List.mem_cons_self _ _)
        have hok2 := framesOk_tail L r rest hok
        rcases hctrl with hb | hp
        · obtain ⟨f, hf⟩ := hdec hb
          have hstep : sysStep L c id ppt .loop ⟨world, r :: rest, none, false, received⟩
              = ⟨world, rest, some { connID := id, f := f }, false, received⟩ := by
            simp [sysStep, workBody_basic L c id ppt r world f herr1 hb hf]
          rw [hstep]
          refine ⟨rfl, hconn, hcap, hlen, hok2, ?_⟩
          rw [← hcons, basicRecords_cons_basic L id r rest f hb hf]
          simp [pairsOf]
        · obtain ⟨w1, hbody, hd, _⟩ := workBody_pingpong L c id ppt r world lc herr1 hp hconn
          have hstep : sysStep L c id ppt .loop ⟨world, r :: rest, none, false, received⟩
              = ⟨w1, rest, none, false, received⟩ := by
            simp [sysStep, hbody]
          rw [hstep]
          refine ⟨rfl, by rw [hd]; exact hconn, by rw [hd]; exact hcap,
            by rw [hd]; exact hlen, hok2, ?_⟩
          rw [← hcons, basicRecords_cons_other L id r rest (pingpong_ne_basic L r hp)]
          simp only [hd]
    · subst hs
      by_cases hroom : world.d.msgCh.length < world.d.msgChCap
      · have hstep : sysStep L c id ppt .loop ⟨world, unread, some m, false, received⟩
            = ⟨chanSend m world, unread, none, false, received⟩ := by
          simp [sysStep, hroom]
        rw [hstep]
        refine ⟨rfl, hconn, hcap, ?_, hok, ?_⟩
        · simp only [chanSend, List.length_append, List.length_singleton]
          rw [← hcap]
          exact hroom
        · rw [← hcons]
          simp [chanSend, pairsOf]
      · have hstep : sysStep L c id ppt .loop ⟨world, unread, some m, false, received⟩
            = ⟨world, unread, some m, false, received⟩ := by
          simp [sysStep, hroom]
        rw [hstep]
        exact ⟨rfl, hconn, hcap, hlen, hok, hcons⟩

theorem sysRun_inv {F W : Type} (L : Externals F W) (c : Nat) (id : String) (ppt : Int)
    (lc cap : Nat) (total : List (String × F)) (moves : List Action) :
    ∀ s : LoopSys F W, sysInv L id lc cap total s →
      sysInv L id lc cap total (sysRun L c id ppt moves s) := by
  induction moves with
  | nil => intro s h; exact h
  | cons a rest ih =>
    intro s h
    exact ih _ (sysStep_inv L c id ppt lc cap total a s h)

theorem sysRun_received_initial {F W : Type} (L : Externals F W) (c : Nat) (id : String)
    (ppt : Int) (lc cap : Nat) (total : List (String × F)) (moves : List Action)
    (s : LoopSys F W) (h : sysInv L id lc cap total s) :
    (sysRun L c id ppt moves s).received <+: total := by
  obtain ⟨_, _, _, _, _, hcons⟩ := sysRun_inv L c id ppt lc cap total moves s h
  rw [← hcons, List.append_assoc, List.append_assoc]
  exact List.prefix_append _ _

theorem sysStep_progress {F W : Type} (L : Externals F W) (c : Nat) (id : String) (ppt : Int)
    (lc cap : Nat) (total : List (String × F)) (s : LoopSys F W)
    (h : sysInv L id lc cap total s) (hcap : 0 < cap) (hwork : 0 < sysWork s) :
    ∃ a, sysWork (sysStep L c id ppt a s) < sysWork s := by
  obtain ⟨world, unread, sending, ended, received⟩ := s
  obtain ⟨hend, hconn, hcap1, _, hok, _⟩ := h
  simp only at hend hconn hcap1 hok
  subst hend
  rcases hq : world.d.msgCh with _ | ⟨m, q⟩
  · rcases hs : sending with _ | m
    · rcases hu : unread with _ | ⟨r, rest⟩
      · subst hs hu
        simp [sysWork, hq] at hwork
      · subst hs hu
        refine ⟨.loop, ?_⟩
        obtain ⟨herr1, hctrl, hdec⟩ := hok r (List.mem_cons_self _ _)
        rcases hctrl with hb | hp
        · obtain ⟨f, hf⟩ := hdec hb
          have hstep : sysStep L c id ppt .loop ⟨world, r :: rest, none, false, received⟩
              = ⟨world, rest, some { connID := id, f := f }, false, received⟩ := by
            simp [sysStep, workBody_basic L c id ppt r world f herr1 hb hf]
          rw [hstep]
          simp only [sysWork, Option.toList, List.length_cons, List.length_nil]
          omega
        · obtain ⟨w1, hbody, hd, _⟩ := workBody_pingpong L c id ppt r world lc herr1 hp hconn
          have hstep : sysStep L c id ppt .loop ⟨world, r :: rest, none, false, received⟩
              = ⟨w1, rest, none, false, received⟩ := by
            simp [sysStep, hbody]
          rw [hstep]
          simp only [sysWork, Option.toList, List.length_cons, List.length_nil, hd]
          omega
    · subst hs
      refine ⟨.loop, ?_⟩
      have hroom : world.d.msgCh.length < world.d.msgChCap := by
        rw [hq, hcap1]
        exact hcap
      have hstep : sysStep L c id ppt .loop ⟨world, unread, some m, false, received⟩
          = ⟨chanSend m world, unread, none, false, received⟩ := by
        simp [sysStep, hroom]
      rw [hstep]
      simp only [sysWork, Option.toList, List.length_cons, List.length_nil, chanSend,
        List.length_append]
      omega
  · refine ⟨.recv, ?_⟩
    have hstep : sysStep L c id ppt .recv ⟨world, unread, sending, false, received⟩
        = ⟨{ world with d := { world.d with msgCh := q } }, unread, sending, false,
            received ++ [(m.connID, m.f)]⟩ := by
      simp [sysStep, Recv, hq]
    rw [hstep]
    simp only [sysWork, hq, List.length_cons]
    omega

theorem sysRun_delivers_all {F W : Type} (L : Externals F W) (c : Nat) (id : String)
    (ppt : Int) (lc cap : Nat) (total : List (String × F)) (s : LoopSys F W)
    (h : sysInv L id lc cap total s) (hcap : 0 < cap) :
    ∃ moves, (sysRun L c id ppt moves s).received = total := by
  generalize hn : sysWork s = n
  induction n using Nat.strong_induction_on generalizing s with
  | _ n ih =>
    by_cases hz : n = 0
    · subst hz
      refine ⟨[], ?_⟩
      obtain ⟨_, _, _, _, _, hcons⟩ := h
      simp only [sysWork] at hn
      have h1 : s.unread.length = 0 := by omega
      have h2 : s.sending.toList.length = 0 := by omega
      have h3 : s.world.d.msgCh.length = 0 := by omega
      rw [List.length_eq_zero] at h1 h2 h3
      rw [h1, h2, h3] at hcons
      simpa [sysRun, pairsOf, basicRecords] using hcons
    · have hpos : 0 < sysWork s := by omega
      obtain ⟨a, ha⟩ := sysStep_progress L c id ppt lc cap total s h hcap hpos
      obtain ⟨moves, hmoves⟩ :=
        ih (sysWork (sysStep L c id ppt a s)) (by omega) (sysStep L c id ppt a s)
          (sysStep_inv L c id ppt lc cap total a s h) rfl
      exact ⟨a :: moves, hmoves⟩

theorem sysStep_recv_keeps {F W : Type} (L : Externals F W) (c : Nat) (id : String)
    (ppt : Int) (s : LoopSys F W) :
    (sysStep L c id ppt .recv s).ended = s.ended ∧
    (sysStep L c id ppt .recv s).unread = s.unread ∧
    ((sysStep L c id ppt .recv s).world).events = s.world.events ∧
    ((sysStep L c id ppt .recv s).world).conns = s.world.conns ∧
    ((sysStep L c id ppt .recv s).world).d.closeHookFunc = s.world.d.closeHookFunc := by
  rcases hq : s.world.d.msgCh with _ | ⟨m, q⟩
  · simp [sysStep, Recv, hq]
  · simp [sysStep, Recv, hq]

theorem sysStep_loop_ended {F W : Type} (L : Externals F W) (c : Nat) (id : String)
    (ppt : Int) (s : LoopSys F W) (h : s.ended = true) :
    sysStep L c id ppt .loop s = s := by
  simp [sysStep, h]

theorem sysStep_hookInv {F W : Type} (L : Externals F W) (c : Nat) (id : String) (ppt : Int)
    (r : RecvResult) (rest : List RecvResult) (hook : CloseHook W) (e : GoError)
    (n0 k0 : Nat) (herr : r.err = some e) (a : Action) (s : LoopSys F W)
    (h : hookInv c id r rest hook e n0 k0 s) :
    hookInv c id r rest hook e n0 k0 (sysStep L c id ppt a s) := by
  cases a with
  | recv =>
    obtain ⟨h1, h2, h3, h4, h5⟩ := sysStep_recv_keeps L c id ppt s
    simp only [hookInv, h1, h2, h3, h4, h5]
    exact h
  | loop =>
    rcases h with ⟨hend, hhook, hcount, hclosed, front, hunread, hfront⟩ | h | h
    · obtain ⟨world, unread, sending, ended, received⟩ := s
      simp only at hend hhook hcount hclosed hunread
      subst hend
      rcases sending with _ | m
      · subst hunread
        rcases front with _ | ⟨x, xs⟩
        · have hstep : sysStep L c id ppt .loop ⟨world, [] ++ r :: rest, none, false, received⟩
              = ⟨{ connClose world c with
                    ext := hook id e world.ext,
                    events := world.events ++ [.closeHook id e] },
                  rest, none, true, received⟩ := by
            simp [sysStep, workBody_error L c id ppt r world hook e herr hhook]
          rw [hstep]
          right
          right
          refine ⟨rfl, rfl, ?_, ?_, ?_⟩
          · simp [connClose, List.countP_append, Event.isCloseHook, hcount]
          · simp [connClose]
          · simp [connClose, hclosed]
        · have hx : x.err = none := hfront x (List.mem_cons_self _ _)
          have hxs : ∀ y ∈ xs, y.err = none :=
            fun y hy => hfront y (List.mem_cons_of_mem _ hy)
          by_cases hb : ctrlOf L x = L.BasicCtrlCode
          · rcases hf : L.UnMarshalBasic (typOf L x) x.data with e1 | f
            · have hstep : sysStep L c id ppt .loop
                  ⟨world, (x :: xs) ++ r :: rest, none, false, received⟩
                  = ⟨world, xs ++ r :: rest, none, true, received⟩ := by
                simp [sysStep, workBody_decode_panic L c id ppt x world e1 hx hb hf]
              rw [hstep]
              exact Or.inr (Or.inl ⟨rfl, hcount⟩)
            · have hstep : sysStep L c id ppt .loop
                  ⟨world, (x :: xs) ++ r :: rest, none, false, received⟩
                  = ⟨world, xs ++ r :: rest, some { connID := id, f := f }, false,
                      received⟩ := by
                simp [sysStep, workBody_basic L c id ppt x world f hx hb hf]
              rw [hstep]
              exact Or.inl ⟨rfl, hhook, hcount, hclosed, xs, rfl, hxs⟩
          · by_cases hp : ctrlOf L x = L.PingPongCtrlCode
            · rcases hconn : world.d.linkedConn with _ | lc
              · have hstep : sysStep L c id ppt .loop
                    ⟨world, (x :: xs) ++ r :: rest, none, false, received⟩
                    = ⟨{ world with
                          events := world.events ++ [.timerReset (mulDuration 2 ppt)] },
                        xs ++ r :: rest, none, true, received⟩ := by
                  simp [sysStep, workBody_nil_conn_panic L c id ppt x world hx hp hconn]
                rw [hstep]
                refine Or.inr (Or.inl ⟨rfl, ?_⟩)
                simp [List.countP_append, Event.isCloseHook, hcount]
              · obtain ⟨w1, hbody, hd, hev, _, _, hcl, _⟩ :=
                  workBody_pingpong L c id ppt x world lc hx hp hconn
                have hstep : sysStep L c id ppt .loop
                    ⟨world, (x :: xs) ++ r :: rest, none, false, received⟩
                    = ⟨w1, xs ++ r :: rest, none, false, received⟩ := by
                  simp [sysStep, hbody]
                rw [hstep]
                refine Or.inl ⟨rfl, by rw [hd]; exact hhook, ?_, by rw [hcl c]; exact hclosed,
                  xs, rfl, hxs⟩
                simp only [hev]
                simp [List.countP_append, Event.isCloseHook, hcount]
            · have hstep : sysStep L c id ppt .loop
                  ⟨world, (x :: xs) ++ r :: rest, none, false, received⟩
                  = ⟨world, xs ++ r :: rest, none, true, received⟩ := by
                simp [sysStep, workBody_unknown_ctrl_panic L c id ppt x world hx hb hp]
              rw [hstep]
              exact Or.inr (Or.inl ⟨rfl, hcount⟩)
      · by_cases hroom : world.d.msgCh.length < world.d.msgChCap
        · have hstep : sysStep L c id ppt .loop ⟨world, unread, some m, false, received⟩
              = ⟨chanSend m world, unread, none, false, received⟩ := by
            simp [sysStep, hroom]
          rw [hstep]
          exact Or.inl ⟨rfl, hhook, hcount, hclosed, front, hunread, hfront⟩
        · have hstep : sysStep L c id ppt .loop ⟨world, unread, some m, false, received⟩
              = ⟨world, unread, some m, false, received⟩ := by
            simp [sysStep, hroom]
          rw [hstep]
          exact Or.inl ⟨rfl, hhook, hcount, hclosed, front, hunread, hfront⟩
    · rw [sysStep_loop_ended L c id ppt s h.1]
      exact Or.inr (Or.inl h)
    · rw [sysStep_loop_ended L c id ppt s h.1]
      exact Or.inr (Or.inr h)

theorem sysRun_hookInv {F W : Type} (L : Externals F W) (c : Nat) (id : String) (ppt : Int)
    (r : RecvResult) (rest : List RecvResult) (hook : CloseHook W) (e : GoError)
    (n0 k0 : Nat) (herr : r.err = some e) (moves : List Action) :
    ∀ s : LoopSys F W, hookInv c id r rest hook e n0 k0 s →
      hookInv c id r rest hook e n0 k0 (sysRun L c id ppt moves s) := by
  induction moves with
  | nil => intro s h; exact h
  | cons a ms ih =>
    intro s h
    exact ih _ (sysStep_hookInv L c id ppt r rest hook e n0 k0 herr a s h)

theorem sysRun_hook_at_most_once {F W : Type} (L : Externals F W) (c : Nat) (id : String)
    (ppt : Int) (r : RecvResult) (rest : List RecvResult) (hook : CloseHook W) (e : GoError)
    (herr : r.err = some e) (front : List RecvResult) (w : World F W)
    (hfront : ∀ x ∈ front, x.err = none) (hhook : w.d.closeHookFunc = some hook)
    (moves : List Action) :
    ((sysRun L c id ppt moves (sysStart w (front ++ r :: rest))).world).events.countP
        Event.isCloseHook ≤ w.events.countP Event.isCloseHook + 1 ∧
    (((sysRun L c id ppt moves (sysStart w (front ++ r :: rest))).world).events.countP
        Event.isCloseHook = w.events.countP Event.isCloseHook + 1 →
      (sysRun L c id ppt moves (sysStart w (front ++ r :: rest))).ended = true ∧
      (sysRun L c id ppt moves (sysStart w (front ++ r :: rest))).unread = rest ∧
      ((sysRun L c id ppt moves (sysStart w (front ++ r :: rest))).world).events.getLast?
        = some (.closeHook id e) ∧
      (((sysRun L c id ppt moves (sysStart w (front ++ r :: rest))).world).conns c).closed
        = (w.conns c).closed + 1) := by
  have h0 : hookInv c id r rest hook e (w.events.countP Event.isCloseHook)
      (w.conns c).closed (sysStart w (front ++ r :: rest)) :=
    Or.inl ⟨rfl, hhook, rfl, rfl, front, rfl, hfront⟩
  rcases sysRun_hookInv L c id ppt r rest hook e _ _ herr moves _ h0 with
    ⟨_, _, hcount, _⟩ | ⟨_, hcount⟩ | ⟨hend, hunread, hcount, hlast, hclosed⟩
  · exact ⟨by omega, fun h => by omega⟩
  · exact ⟨by omega, fun h => by omega⟩
  · exact ⟨by omega, fun _ => ⟨hend, hunread, hlast, hclosed⟩⟩

/-! ### The receive loop: the claims -/

/-- C6, as stated, fails: on connection 0 of a linked dispatcher the reads deliver, without
a read error, a frame whose control code is not assigned and then a Basic frame whose payload
decodes.  The Basic subsequence has one frame, yet nothing is put on the queue: the loop
panics at the first frame and never reads the second.  Besides, the queue is bounded: of
twelve Basic frames, read while nobody calls `Recv`, ten records are put on the queue and the
loop stays in the send of the eleventh. -/
theorem work_enqueue_counterexample :
    (∀ r ∈ [readUnknown, readBasic [7]], r.err = none) ∧
    demoLib.UnMarshalBasic (typOf demoLib (readBasic [7])) (readBasic [7]).data
      = .ok (.basic 1 [7]) ∧
    [readUnknown, readBasic [7]].filter (isBasicRead demoLib) = [readBasic [7]] ∧
    demoLinked.d.msgCh.length = 0 ∧
    ((work demoLib 0 50000000 [readUnknown, readBasic [7]] demoLinked).1).d.msgCh.length = 0 ∧
    (work demoLib 0 50000000 [readUnknown, readBasic [7]] demoLinked).2
      = .panicked (.error (.berrNewF "dispatch" "recv" "ctrl code [%s] not support" 2))
          [readBasic [7]] ∧
    (readsTwelve.filter (isBasicRead demoLib)).length = 12 ∧
    demoLinked.d.msgChCap = 10 ∧
    ((work demoLib 0 50000000 readsTwelve demoLinked).1).d.msgCh.length = 10 ∧
    (work demoLib 0 50000000 readsTwelve demoLinked).2
      = .blockedInSend (readBasic [7]) [readBasic [7]] :=
  ⟨by decide, rfl, by decide, by decide, by decide, by decide, by decide, by decide,
    by decide, by decide⟩

/-- C6, amended: let the dispatcher own a connection, and let the reads deliver, without a
read error, frames whose control code is Basic or PingPong and whose Basic payloads decode.
The records `basicRecords` are exactly the Basic frames of the reads, in wire order, decoded
and tagged with the id of the loop, and no PingPong frame is among them.
With calls of `Recv` coming in between in any order and the channel bounded by its capacity,
the loop never ends, the channel never holds more than its capacity, and no record is lost
or reordered: what the calls of `Recv` have returned, then the channel, then the waiting send,
then the Basic frames still unread, is always that list; so what `Recv` has returned, and
the records put on the queue so far, are initial segments of it, the records put on the
queue are all of it once every read is consumed and no send waits, and some order of moves
has `Recv` return all of it.
When no other goroutine moves, the loop either consumes all reads with exactly these records
on the queue, or stays in the send of a Basic frame with the channel full and the records of
the Basic frames before it on the queue; it consumes all reads when the channel has room for
them.  Successive calls of `Recv` then return the queue from its oldest record on. -/
theorem work_enqueues_basic_frames_in_order {F W : Type} (L : Externals F W) (c : Nat)
    (ppt : Int) (reads : List RecvResult) (w : World F W) (lc : Nat)
    (hconn : w.d.linkedConn = some lc)
    (herr : ∀ r ∈ reads, r.err = none)
    (hctrl : ∀ r ∈ reads, ctrlOf L r = L.BasicCtrlCode ∨ ctrlOf L r = L.PingPongCtrlCode)
    (hdec : ∀ r ∈ reads, ctrlOf L r = L.BasicCtrlCode →
      ∃ f, L.UnMarshalBasic (typOf L r) r.data = .ok f) :
    List.Forall₂ (recordOf L (w.newId w.idCount)) (reads.filter (isBasicRead L))
      (basicRecords L (w.newId w.idCount) reads) ∧
    (∀ r ∈ reads, ctrlOf L r = L.PingPongCtrlCode → r ∉ reads.filter (isBasicRead L)) ∧
    (w.d.msgCh.length ≤ w.d.msgChCap →
      ∀ moves,
        (sysRun L c (w.newId w.idCount) ppt moves
          (sysStart (workStart L ppt w) reads)).ended = false ∧
        ((sysRun L c (w.newId w.idCount) ppt moves
          (sysStart (workStart L ppt w) reads)).world).d.msgCh.length ≤ w.d.msgChCap ∧
        (sysRun L c (w.newId w.idCount) ppt moves
            (sysStart (workStart L ppt w) reads)).received
          ++ pairsOf ((sysRun L c (w.newId w.idCount) ppt moves
            (sysStart (workStart L ppt w) reads)).world).d.msgCh
          ++ pairsOf ((sysRun L c (w.newId w.idCount) ppt moves
            (sysStart (workStart L ppt w) reads)).sending).toList
          ++ pairsOf (basicRecords L (w.newId w.idCount)
            (sysRun L c (w.newId w.idCount) ppt moves
              (sysStart (workStart L ppt w) reads)).unread)
          = pairsOf (w.d.msgCh ++ basicRecords L (w.newId w.idCount) reads) ∧
        (sysRun L c (w.newId w.idCount) ppt moves
            (sysStart (workStart L ppt w) reads)).received
          <+: pairsOf (w.d.msgCh ++ basicRecords L (w.newId w.idCount) reads) ∧
        (sysRun L c (w.newId w.idCount) ppt moves
            (sysStart (workStart L ppt w) reads)).received
          ++ pairsOf ((sysRun L c (w.newId w.idCount) ppt moves
            (sysStart (workStart L ppt w) reads)).world).d.msgCh
          <+: pairsOf (w.d.msgCh ++ basicRecords L (w.newId w.idCount) reads) ∧
        ((sysRun L c (w.newId w.idCount) ppt moves
            (sysStart (workStart L ppt w) reads)).unread = [] →
          (sysRun L c (w.newId w.idCount) ppt moves
            (sysStart (workStart L ppt w) reads)).sending = none →
          (sysRun L c (w.newId w.idCount) ppt moves
              (sysStart (workStart L ppt w) reads)).received
            ++ pairsOf ((sysRun L c (w.newId w.idCount) ppt moves
              (sysStart (workStart L ppt w) reads)).world).d.msgCh
            = pairsOf (w.d.msgCh ++ basicRecords L (w.newId w.idCount) reads))) ∧
    (w.d.msgCh.length ≤ w.d.msgChCap → 0 < w.d.msgChCap →
      ∃ moves, (sysRun L c (w.newId w.idCount) ppt moves
          (sysStart (workStart L ppt w) reads)).received
        = pairsOf (w.d.msgCh ++ basicRecords L (w.newId w.idCount) reads)) ∧
    (((work L c ppt reads w).2 = .blocked ∧
        ((work L c ppt reads w).1).d.msgCh
          = w.d.msgCh ++ basicRecords L (w.newId w.idCount) reads) ∨
      (∃ front r u, reads = front ++ r :: u ∧
        (work L c ppt reads w).2 = .blockedInSend r u ∧
        ((work L c ppt reads w).1).d.msgCh
          = w.d.msgCh ++ basicRecords L (w.newId w.idCount) front ∧
        ctrlOf L r = L.BasicCtrlCode ∧
        w.d.msgChCap ≤ ((work L c ppt reads w).1).d.msgCh.length)) ∧
    (w.d.msgCh.length + (basicRecords L (w.newId w.idCount) reads).length ≤ w.d.msgChCap →
      (work L c ppt reads w).2 = .blocked ∧
      ((work L c ppt reads w).1).d.msgCh
        = w.d.msgCh ++ basicRecords L (w.newId w.idCount) reads) ∧
    (∀ n, (RecvN n (work L c ppt reads w).1).1
        = (pairsOf ((work L c ppt reads w).1).d.msgCh).take n ∧
      (RecvN n (work L c ppt reads w).1).1
        <+: pairsOf (w.d.msgCh ++ basicRecords L (w.newId w.idCount) reads)) := by
  have hok : framesOk L reads := fun r hr => ⟨herr r hr, hctrl r hr, hdec r hr⟩
  have halone :
      ((work L c ppt reads w).2 = .blocked ∧
        ((work L c ppt reads w).1).d.msgCh
          = w.d.msgCh ++ basicRecords L (w.newId w.idCount) reads) ∨
      (∃ front r u, reads = front ++ r :: u ∧
        (work L c ppt reads w).2 = .blockedInSend r u ∧
        ((work L c ppt reads w).1).d.msgCh
          = w.d.msgCh ++ basicRecords L (w.newId w.idCount) front ∧
        ctrlOf L r = L.BasicCtrlCode ∧
        w.d.msgChCap ≤ ((work L c ppt reads w).1).d.msgCh.length) :=
    workLoop_enqueues L c (w.newId w.idCount) ppt lc reads (workStart L ppt w) hconn hok
  have hqueue : ((work L c ppt reads w).1).d.msgCh
      <+: w.d.msgCh ++ basicRecords L (w.newId w.idCount) reads := by
    rcases halone with ⟨_, hms⟩ | ⟨front, r, u, hsplit, _, hms, _, _⟩
    · rw [hms]
    · rw [hms, hsplit, basicRecords_append, ← List.append_assoc]
      exact List.prefix_append _ _
  have hinv := sysStart_inv L (w.newId w.idCount) lc reads (workStart L ppt w) hconn hok
  refine ⟨basicRecords_are_the_basic_frames L _ reads hok, ?_, ?_, ?_, halone, ?_, ?_⟩
  · intro r _ hp hmem
    have hb : isBasicRead L r = true := (List.mem_filter.mp hmem).2
    simp only [isBasicRead, decide_eq_true_eq] at hb
    exact pingpong_ne_basic L r hp hb
  · intro hlen moves
    obtain ⟨hend, _, _, hlen1, _, hcons⟩ :=
      sysRun_inv L c (w.newId w.idCount) ppt lc _ _ moves _ (hinv hlen)
    refine ⟨hend, hlen1, hcons, ?_, ?_, ?_⟩
    · exact sysRun_received_initial L c (w.newId w.idCount) ppt lc _ _ moves _ (hinv hlen)
    · have hcons1 : (sysRun L c (w.newId w.idCount) ppt moves
            (sysStart (workStart L ppt w) reads)).received
          ++ pairsOf ((sysRun L c (w.newId w.idCount) ppt moves
            (sysStart (workStart L ppt w) reads)).world).d.msgCh
          ++ (pairsOf ((sysRun L c (w.newId w.idCount) ppt moves
              (sysStart (workStart L ppt w) reads)).sending).toList
            ++ pairsOf (basicRecords L (w.newId w.idCount)
              (sysRun L c (w.newId w.idCount) ppt moves
                (sysStart (workStart L ppt w) reads)).unread))
          = pairsOf (w.d.msgCh ++ basicRecords L (w.newId w.idCount) reads) := by
        rw [← List.append_assoc]
        exact hcons
      exact ⟨_, hcons1⟩
    · intro hu hs
      rw [hu, hs] at hcons
      simpa [pairsOf, basicRecords] using hcons
  · intro hlen hcap
    exact sysRun_delivers_all L c (w.newId w.idCount) ppt lc _ _ _ (hinv hlen) hcap
  · intro hroom
    exact workLoop_enqueues_room L c (w.newId w.idCount) ppt lc reads (workStart L ppt w)
      hconn hok hroom
  · intro n
    refine ⟨by rw [RecvN_eq_take, pairsOf, List.map_take], ?_⟩
    rw [RecvN_eq_take]
    have h1 : (((work L c ppt reads w).1).d.msgCh.take n).map (fun m => (m.connID, m.f))
        <+: pairsOf ((work L c ppt reads w).1).d.msgCh :=
      List.IsPrefix.map _ (List.take_prefix _ _)
    exact h1.trans (List.IsPrefix.map _ hqueue)

/-- Witness of amended C6: a Basic frame, a PingPong frame and a second Basic frame on
connection 0 of the linked dispatcher, whose channel is empty and has capacity 10; the loop
alone consumes the three reads, the queue holds the two Basic records, and a run of five
moves with two calls of `Recv` has received an initial segment of them. -/
theorem work_enqueues_basic_frames_in_order_witness :
    ((work demoLib 0 50000000 [readBasic [7], readPing, readBasic [9]] demoLinked).2
        = .blocked ∧
      ((work demoLib 0 50000000 [readBasic [7], readPing, readBasic [9]] demoLinked).1).d.msgCh
        = demoLinked.d.msgCh ++
          basicRecords demoLib (demoLinked.newId demoLinked.idCount)
            [readBasic [7], readPing, readBasic [9]]) ∧
    (sysRun demoLib 0 (demoLinked.newId demoLinked.idCount) 50000000
        [.loop, .recv, .loop, .loop, .recv]
        (sysStart (workStart demoLib 50000000 demoLinked)
          [readBasic [7], readPing, readBasic [9]])).received
      <+: pairsOf (demoLinked.d.msgCh ++
        basicRecords demoLib (demoLinked.newId demoLinked.idCount)
          [readBasic [7], readPing, readBasic [9]]) :=
  let h := work_enqueues_basic_frames_in_order demoLib 0 50000000
    [readBasic [7], readPing, readBasic [9]] demoLinked 0
    (by decide) (by decide) (by decide)
    (by
      intro r hr hb
      simp only [List.mem_cons, List.mem_singleton, List.not_mem_nil, or_false] at hr
      rcases hr with rfl | rfl | rfl
      · exact ⟨_, rfl⟩
      · exact absurd hb (by decide)
      · exact ⟨_, rfl⟩)
  ⟨h.2.2.2.2.2.1 (by decide),
   (h.2.2.1 (by decide) [.loop, .recv, .loop, .loop, .recv]).2.2.2.1⟩

/-- C8: when a read of the loop returns the error `e`, the loop closes its connection, calls
the registered close hook with its id and `e`, and returns; the reads that follow are not
consumed, nothing is written and nothing is put on the queue.  In a run that reaches this
read through reads without error, the hook call is the only one the run makes, and it is its
last action: when no other goroutine moves, the run panics before the read, or stays in a
send with the channel full and the hook not called, or returns in this way, and it does not
stay in a send when the channel has room for the reads before; with calls of `Recv` coming
in between in any order, the hook is called at most once, and once it is called the loop has
ended with the later reads unread, the call with `id` and `e` is the last event, and the
connection has been closed once. -/
theorem work_read_error_closes_and_calls_hook_once {F W : Type} (L : Externals F W)
    (c : Nat) (id : String) (ppt : Int) (r : RecvResult) (rest : List RecvResult)
    (w : World F W) (hook : CloseHook W) (e : GoError)
    (herr : r.err = some e) (hhook : w.d.closeHookFunc = some hook) :
    workLoop L c id ppt (r :: rest) w
      = ({ connClose w c with
            ext := hook id e w.ext, events := w.events ++ [.closeHook id e] },
         .returned rest) ∧
    (((workLoop L c id ppt (r :: rest) w).1).conns c).closed = (w.conns c).closed + 1 ∧
    (∀ c1, (((workLoop L c id ppt (r :: rest) w).1).conns c1).written
      = (w.conns c1).written) ∧
    ((workLoop L c id ppt (r :: rest) w).1).d = w.d ∧
    (∀ front, (∀ x ∈ front, x.err = none) →
      (∃ p u, (workLoop L c id ppt (front ++ r :: rest) w).2 = .panicked p u) ∨
      (∃ x u, (workLoop L c id ppt (front ++ r :: rest) w).2 = .blockedInSend x u ∧
        w.d.msgChCap < w.d.msgCh.length + front.length ∧
        ((workLoop L c id ppt (front ++ r :: rest) w).1).events.countP Event.isCloseHook
          = w.events.countP Event.isCloseHook) ∨
      ((workLoop L c id ppt (front ++ r :: rest) w).2 = .returned rest ∧
        ((workLoop L c id ppt (front ++ r :: rest) w).1).events.countP Event.isCloseHook
          = w.events.countP Event.isCloseHook + 1 ∧
        ((workLoop L c id ppt (front ++ r :: rest) w).1).events.getLast?
          = some (.closeHook id e) ∧
        ((((workLoop L c id ppt (front ++ r :: rest) w).1).conns c).closed
          = (w.conns c).closed + 1))) ∧
    (∀ front, (∀ x ∈ front, x.err = none) →
      w.d.msgCh.length + front.length ≤ w.d.msgChCap →
      (∃ p u, (workLoop L c id ppt (front ++ r :: rest) w).2 = .panicked p u) ∨
      ((workLoop L c id ppt (front ++ r :: rest) w).2 = .returned rest ∧
        ((workLoop L c id ppt (front ++ r :: rest) w).1).events.countP Event.isCloseHook
          = w.events.countP Event.isCloseHook + 1 ∧
        ((workLoop L c id ppt (front ++ r :: rest) w).1).events.getLast?
          = some (.closeHook id e) ∧
        ((((workLoop L c id ppt (front ++ r :: rest) w).1).conns c).closed
          = (w.conns c).closed + 1))) ∧
    (∀ front, (∀ x ∈ front, x.err = none) → ∀ moves,
      ((sysRun L c id ppt moves (sysStart w (front ++ r :: rest))).world).events.countP
          Event.isCloseHook ≤ w.events.countP Event.isCloseHook + 1 ∧
      (((sysRun L c id ppt moves (sysStart w (front ++ r :: rest))).world).events.countP
          Event.isCloseHook = w.events.countP Event.isCloseHook + 1 →
        (sysRun L c id ppt moves (sysStart w (front ++ r :: rest))).ended = true ∧
        (sysRun L c id ppt moves (sysStart w (front ++ r :: rest))).unread = rest ∧
        ((sysRun L c id ppt moves (sysStart w (front ++ r :: rest))).world).events.getLast?
          = some (.closeHook id e) ∧
        (((sysRun L c id ppt moves (sysStart w (front ++ r :: rest))).world).conns c).closed
          = (w.conns c).closed + 1)) := by
  have h := workLoop_error_step L c id ppt r rest w hook e herr hhook
  refine ⟨h, ?_, ?_, ?_, ?_, ?_, ?_⟩
  · rw [h]
    simp [connClose]
  · intro c1
    rw [h]
    by_cases hc : c1 = c
    · subst hc
      simp [connClose]
    · simp [connClose, Function.update_noteq hc]
  · rw [h]
    rfl
  · intro front hfront
    exact workLoop_error_after L c id ppt r rest hook e herr front w hfront hhook
  · intro front hfront hroom
    rcases workLoop_error_after L c id ppt r rest hook e herr front w hfront hhook with
      hp | ⟨_, _, _, hfull, _⟩ | hr
    · exact Or.inl hp
    · omega
    · exact Or.inr hr
  · intro front hfront moves
    exact sysRun_hook_at_most_once L c id ppt r rest hook e herr front w hfront hhook moves

/-- Witness of C8: the loop of connection 0 with the hook `demoHook` registered meets an
end-of-file error; a Basic frame follows and is not read. -/
theorem work_read_error_closes_and_calls_hook_once_witness :
    workLoop demoLib 0 "id0" 50000000 (readEOF :: [readBasic [9]]) demoHooked
      = ({ connClose demoHooked 0 with
            ext := demoHook "id0" (.msg "EOF") demoHooked.ext,
            events := demoHooked.events ++ [.closeHook "id0" (.msg "EOF")] },
         .returned [readBasic [9]]) :=
  (work_read_error_closes_and_calls_hook_once demoLib 0 "id0" 50000000 readEOF
    [readBasic [9]] demoHooked demoHook (.msg "EOF") rfl rfl).1

/-- C9, as stated, fails.  After a second `Link` the dispatcher owns connection 1 while the
loop of connection 0 still runs; a PingPong frame that arrives on connection 0 is answered
with a Pong written on connection 1, and nothing is written on connection 0.  Besides, the
timer value is the `int64` product: in the loop launched by a `Link` with an interval of
`2 ^ 62` the timer is reset to `-(2 ^ 63)`. -/
theorem work_pong_counterexample :
    demoLinkedTwice.d.linkedConn = some 1 ∧
    readPing.err = none ∧
    ctrlOf demoLib readPing = demoLib.PingPongCtrlCode ∧
    (((workLoop demoLib 0 "id0" 50000000 [readPing] demoLinkedTwice).1).conns 0).written
      = (demoLinkedTwice.conns 0).written ∧
    (((workLoop demoLib 0 "id0" 50000000 [readPing] demoLinkedTwice).1).conns 1).written
      = (demoLinkedTwice.conns 1).written ++ [(33, [])] ∧
    demoLinkedHuge.events = [.goWork 0 (2 ^ 62)] ∧
    ((work demoLib 0 (2 ^ 62) [readPing] demoLinkedHuge).1).events
      = [.goWork 0 (2 ^ 62), .timerNew (-(2 ^ 63)), .goIsTimeOut, .timerReset (-(2 ^ 63))] ∧
    (-(2 ^ 63) : Int) ≠ 2 * 2 ^ 62 :=
  ⟨by decide, by decide, by decide, by decide, by decide, by decide, by decide, by decide⟩

/-- C9, amended: for a read without error whose frame has control code PingPong, in a
dispatcher that owns the connection `lc`, the loop resets the timer to the `time.Duration`
product `2 * pingPongTime` (the exact double as long as it fits `int64`), writes exactly one
frame, the Pong built from the map and the error of `getMachineInfo`, on `lc` (the connection
the dispatcher owns, which is the connection of the loop unless a later `Link` has replaced
it), and goes on with the next read whatever the result of the write: no connection is
closed, the hook is not called, and a failed write is only logged. -/
theorem work_pingpong_resets_timer_and_sends_pong {F W : Type} (L : Externals F W)
    (c : Nat) (id : String) (ppt : Int) (r : RecvResult) (rest : List RecvResult)
    (w : World F W) (lc : Nat)
    (herr : r.err = none) (hc : ctrlOf L r = L.PingPongCtrlCode)
    (hconn : w.d.linkedConn = some lc) :
    ∃ w1 : World F W,
      workLoop L c id ppt (r :: rest) w = workLoop L c id ppt rest w1 ∧
      w1.d = w.d ∧
      w1.events = w.events ++ [.timerReset (mulDuration 2 ppt)] ∧
      (-(2 ^ 62) ≤ ppt → ppt < 2 ^ 62 → mulDuration 2 ppt = 2 * ppt) ∧
      (w1.conns lc).written = (w.conns lc).written ++
        [(toByte (L.Opcode (L.NewPong (getMachineInfo w.d).1 (getMachineInfo w.d).2)),
          L.Marshal (L.NewPong (getMachineInfo w.d).1 (getMachineInfo w.d).2))] ∧
      (∀ c1, c1 ≠ lc → w1.conns c1 = w.conns c1) ∧
      (∀ c1, (w1.conns c1).closed = (w.conns c1).closed) ∧
      (((w.conns lc).writeResult (w.conns lc).written.length = none ∧ w1.ext = w.ext) ∨
        ∃ err, (w.conns lc).writeResult (w.conns lc).written.length = some err ∧
          w1.ext = L.logPrint "sendPong err" [.err (some err)] w.ext) := by
  obtain ⟨w1, h1, h2, h3, h4, h5, h6, h7⟩ :=
    workLoop_pingpong_step L c id ppt r rest w lc herr hc hconn
  exact ⟨w1, h1, h2, h3, mulDuration_two_exact ppt, h4, h5, h6, h7⟩

/-- Witness of amended C9: a PingPong frame on connection 0 of the linked dispatcher, which
owns connection 0. -/
theorem work_pingpong_resets_timer_and_sends_pong_witness :
    ∃ w1 : World DemoFrame (List String),
      workLoop demoLib 0 "id0" 50000000 (readPing :: [readBasic [7]]) demoRunning
        = workLoop demoLib 0 "id0" 50000000 [readBasic [7]] w1 ∧
      w1.d = demoRunning.d ∧
      w1.events = demoRunning.events ++ [.timerReset (mulDuration 2 50000000)] ∧
      (-(2 ^ 62) ≤ (50000000 : Int) → (50000000 : Int) < 2 ^ 62 →
        mulDuration 2 50000000 = 2 * 50000000) ∧
      (w1.conns 0).written = (demoRunning.conns 0).written ++
        [(toByte (demoLib.Opcode (demoLib.NewPong (getMachineInfo demoRunning.d).1
            (getMachineInfo demoRunning.d).2)),
          demoLib.Marshal (demoLib.NewPong (getMachineInfo demoRunning.d).1
            (getMachineInfo demoRunning.d).2))] ∧
      (∀ c1, c1 ≠ 0 → w1.conns c1 = demoRunning.conns c1) ∧
      (∀ c1, (w1.conns c1).closed = (demoRunning.conns c1).closed) ∧
      (((demoRunning.conns 0).writeResult (demoRunning.conns 0).written.length = none ∧
          w1.ext = demoRunning.ext) ∨
        ∃ err, (demoRunning.conns 0).writeResult (demoRunning.conns 0).written.length
            = some err ∧
          w1.ext = demoLib.logPrint "sendPong err" [.err (some err)] demoRunning.ext) :=
  work_pingpong_resets_timer_and_sends_pong demoLib 0 "id0" 50000000 readPing
    [readBasic [7]] demoRunning 0 (by decide) (by decide) (by decide)

end Begonia
